import Mathlib

/-!
Verification of the Source Pattern Analysis Engine of the CodeAnalysisMCP
repository (src/src/index.ts): the language classifier, the per-language
entity extractors, the line-based security rule engine, the quality-metric
calculator and the clone detector.

The TypeScript source is shallowly embedded here.  JavaScript strings are
modelled as `List Char` (obtained from Lean `String.data`); JavaScript
numbers are modelled as `ℚ` wherever the source only performs field
arithmetic and comparisons, and as `ℝ` for the maintainability-index
formula, which uses `ln`, `sin` and `sqrt`.  JavaScript regular
expressions are embedded as an explicit abstract syntax tree `RE`
together with an executable backtracking matcher that reproduces the
ECMAScript semantics used by the source: leftmost match, alternatives
tried left to right, greedy and lazy repetition, numbered capture
groups, character classes and the `i` (case-insensitive) flag.  The
statefulness of `RegExp.prototype.test` on a `g`-flagged regex (the
`lastIndex` property) is modelled explicitly, since the security scanner
depends on it.
-/

namespace CodeAnalysis

/-- The JavaScript whitespace characters relevant to ASCII inputs
(space, tab, line feed, vertical tab, form feed, carriage return).
`\s` and `String.prototype.trim` additionally accept Unicode space
characters, which do not occur in the analysed claims. -/
def jsWhitespace : List Char := [' ', '\t', '\n', '\x0b', '\x0c', '\r']

def isJsSpace (c : Char) : Bool := jsWhitespace.contains c

/-- `String.prototype.trim`: remove leading and trailing whitespace. -/
def jsTrim (s : List Char) : List Char :=
  ((s.dropWhile isJsSpace).reverse.dropWhile isJsSpace).reverse

/-- `String.prototype.split(sep)` for a single-character separator:
splitting the empty string yields `[""]`, a trailing separator yields a
trailing empty piece, exactly as in JavaScript. -/
def jsSplit (sep : Char) : List Char → List (List Char)
  | [] => [[]]
  | c :: rest =>
    if c = sep then
      [] :: jsSplit sep rest
    else
      match jsSplit sep rest with
      | [] => [[c]]
      | p :: ps => (c :: p) :: ps

/-- `content.split('\n')`, the line decomposition used throughout the source. -/
def jsLines (content : List Char) : List (List Char) := jsSplit '\n' content

/-- `String.prototype.includes(sub)`: substring containment. -/
def jsIncludes (s sub : List Char) : Bool :=
  (List.range (s.length + 1)).any (fun i => sub.isPrefixOf (s.drop i))

/-- `String.prototype.indexOf(sub)`: index of the first occurrence, `-1` if none. -/
def jsIndexOf (s sub : List Char) : Int :=
  match (List.range (s.length + 1)).find? (fun i => sub.isPrefixOf (s.drop i)) with
  | some i => (i : Int)
  | none => -1

/-- `Array.prototype.join('\n')` on a list of lines. -/
def joinLines : List (List Char) → List Char
  | [] => []
  | [l] => l
  | l :: ls => l ++ '\n' :: joinLines ls

/-- ASCII lower-casing, the fragment of `String.prototype.toLowerCase`
exercised by the source (file extensions and keyword matching). -/
def jsToLower (s : List Char) : List Char := s.map Char.toLower

/-! ## An executable embedding of the ECMAScript regular expressions used by the source -/

/-- Abstract syntax of the regular expressions appearing in the source.
`cls neg ranges` is a character class (`[...]` or `[^...]`) given by a
list of inclusive character ranges; `star lzy r` is `r*` (greedy when
`lzy = false`, lazy `r*?` when `lzy = true`); `group i r` is the `i`-th
numbered capture group. -/
inductive RE : Type
  | eps : RE
  | lit : Char → RE
  | dot : RE
  | cls : Bool → List (Char × Char) → RE
  | cat : RE → RE → RE
  | alt : RE → RE → RE
  | star : Bool → RE → RE
  | group : Nat → RE → RE
deriving DecidableEq, Repr

/-- Structural size of a regex, used to bound the backtracking depth. -/
def reSize : RE → Nat
  | .eps => 1
  | .lit _ => 1
  | .dot => 1
  | .cls _ _ => 1
  | .cat a b => reSize a + reSize b + 1
  | .alt a b => reSize a + reSize b + 1
  | .star _ r => reSize r + 1
  | .group _ r => reSize r + 1

/-- Character comparison under an optional `i` flag (ASCII case folding). -/
def chEq (ci : Bool) (a b : Char) : Bool :=
  if ci then a.toLower = b.toLower else a = b

/-- Membership of a character in a class, under an optional `i` flag.
ECMAScript canonicalises both the input character and the class entries
for the `i` flag; for the ASCII ranges used in the source this is plain
case folding. -/
def clsMem (ci : Bool) (ranges : List (Char × Char)) (c : Char) : Bool :=
  ranges.any (fun p =>
    (p.1.val ≤ c.val ∧ c.val ≤ p.2.val) ∨
    (ci ∧ p.1.val ≤ c.toLower.val ∧ c.toLower.val ≤ p.2.val) ∨
    (ci ∧ p.1.val ≤ c.toUpper.val ∧ c.toUpper.val ≤ p.2.val))

/-- Capture list: `(groupIndex, startPos, endPos)` triples, most recent first. -/
abbrev Caps := List (Nat × Nat × Nat)

/-- The backtracking matcher, continuation-passing style.  `reMatch ci s
fuel r pos caps k` attempts to match `r` at position `pos` of `s` and
calls `k` with the end position and updated captures; alternatives are
tried left to right and a greedy (resp. lazy) star tries the longer
(resp. shorter) continuation first, exactly the ECMAScript backtracking
order.  An iteration of a star that consumes no input fails, as in the
ECMAScript `RepeatMatcher`.  `fuel` bounds the call depth and is chosen
large enough (see `reFuel`) that it is never exhausted on the inputs
evaluated in this development. -/
def reMatch (ci : Bool) (s : List Char) :
    Nat → RE → Nat → Caps → (Nat → Caps → Option (Nat × Caps)) → Option (Nat × Caps)
  | 0, _, _, _, _ => none
  | _ + 1, .eps, pos, caps, k => k pos caps
  | _ + 1, .lit c, pos, caps, k =>
    match s.get? pos with
    | some a => if chEq ci a c then k (pos + 1) caps else none
    | none => none
  | _ + 1, .dot, pos, caps, k =>
    match s.get? pos with
    | some a => if a = '\n' then none else k (pos + 1) caps
    | none => none
  | _ + 1, .cls neg ranges, pos, caps, k =>
    match s.get? pos with
    | some a => if (clsMem ci ranges a) ≠ neg then k (pos + 1) caps else none
    | none => none
  | fuel + 1, .cat a b, pos, caps, k =>
    reMatch ci s fuel a pos caps (fun p c => reMatch ci s fuel b p c k)
  | fuel + 1, .alt a b, pos, caps, k =>
    (reMatch ci s fuel a pos caps k).orElse (fun _ => reMatch ci s fuel b pos caps k)
  | fuel + 1, .star lzy r, pos, caps, k =>
    let step := fun (p : Nat) (c : Caps) =>
      reMatch ci s fuel r p c (fun p2 c2 =>
        if p < p2 then reMatch ci s fuel (.star lzy r) p2 c2 k else none)
    if lzy then (k pos caps).orElse (fun _ => step pos caps)
    else (step pos caps).orElse (fun _ => k pos caps)
  | fuel + 1, .group i r, pos, caps, k =>
    reMatch ci s fuel r pos caps (fun p c => k p ((i, pos, p) :: c))

/-- A call-depth budget sufficient for the patterns and strings of this
development: star iterations always consume input, so the depth is at
most (regex size) · (string length) plus a constant slack. -/
def reFuel (r : RE) (s : List Char) : Nat := (reSize r + 2) * (s.length + 2)

/-- Attempt to match `r` anchored at position `pos`; returns the end
position and the captures of the first (ECMAScript-order) parse. -/
def reMatchAt (ci : Bool) (r : RE) (s : List Char) (pos : Nat) : Option (Nat × Caps) :=
  reMatch ci s (reFuel r s) r pos [] (fun p c => some (p, c))

/-- The ECMAScript matching loop: try positions `start, start+1, …,
s.length` in order and return `(matchStart, matchEnd, captures)` of the
first position at which the pattern matches. -/
def reuSearch (ci : Bool) (r : RE) (s : List Char) : Nat → Nat → Option (Nat × Nat × Caps)
  | 0, _ => none
  | n + 1, pos =>
    match reMatchAt ci r s pos with
    | some (e, caps) => some (pos, e, caps)
    | none => reuSearch ci r s n (pos + 1)

def findMatchFrom (ci : Bool) (r : RE) (s : List Char) (start : Nat) :
    Option (Nat × Nat × Caps) :=
  reuSearch ci r s (s.length + 1 - start) start

/-- Whether the pattern matches somewhere in the string (search from 0). -/
def reMatches (ci : Bool) (r : RE) (s : List Char) : Bool :=
  (findMatchFrom ci r s 0).isSome

/-- The substring `s[a..b)`. -/
def strSlice (s : List Char) (a b : Nat) : List Char := (s.take b).drop a

/-- The value of capture group `i` of a match: `none` models the
JavaScript `undefined` of a group that was not entered. -/
def capGet (caps : Caps) (i : Nat) (s : List Char) : Option (List Char) :=
  match caps.find? (fun t => t.1 = i) with
  | some (_, a, b) => some (strSlice s a b)
  | none => none

/-- `regex.test(line)` for a `g`-flagged regex object whose `lastIndex`
is `li`: per `RegExpBuiltinExec`, if `lastIndex` exceeds the string
length the call fails and resets `lastIndex` to 0; otherwise the match
is searched from `lastIndex` onwards; on success `lastIndex` becomes the
match end, on failure it is reset to 0.  Returns (result, new lastIndex). -/
def jsTestG (ci : Bool) (r : RE) (s : List Char) (li : Nat) : Bool × Nat :=
  if s.length < li then (false, 0)
  else
    match findMatchFrom ci r s li with
    | some (_, e, _) => (true, e)
    | none => (false, 0)

/-- `line.match(regex)` for a non-global regex: the first match from
position 0 (start, end, captures), `null` if none.  `lastIndex` is not
consulted or modified for non-global regexes. -/
def jsMatch (ci : Bool) (r : RE) (s : List Char) : Option (Nat × Nat × Caps) :=
  findMatchFrom ci r s 0

/-! Convenience constructors for the concrete patterns. -/

/-- A literal string as a regex. -/
def reStr (cs : List Char) : RE := cs.foldr (fun c r => RE.cat (.lit c) r) .eps

/-- `r+` (greedy), encoded as `r · r*`. -/
def rePlus (r : RE) : RE := .cat r (.star false r)

/-- `r?` (greedy), encoded as `r | ε`. -/
def reOpt (r : RE) : RE := .alt r .eps

/-- `\s`. -/
def reSpace : RE := .cls false (jsWhitespace.map (fun c => (c, c)))

/-- `\w` = `[a-zA-Z0-9_]`. -/
def reWord : RE := .cls false [('a', 'z'), ('A', 'Z'), ('0', '9'), ('_', '_')]

/-- `.*` (greedy). -/
def reDotStar : RE := .star false .dot

/-- `.*?` (lazy). -/
def reDotStarLazy : RE := .star true .dot

/-- n-ary alternation, left-associated the way `a|b|c` parses (`alt a (alt b c)`
is equivalent for matching order; ECMAScript alternation associates so that
alternatives are tried left to right, which both encodings satisfy). -/
def reAlts : List RE → RE
  | [] => .eps
  | [r] => r
  | r :: rs => .alt r (reAlts rs)

/-- A literal string pattern. -/
def reStrS (s : String) : RE := reStr s.data

/-! ## The concrete regular expressions of the source -/

/-- `/SELECT.*\+.*|INSERT.*\+.*|\$query.*\+|(execute|query).*\%s/g` -/
def sqlInjectionRe : RE := reAlts [
  .cat (reStrS "SELECT") (.cat reDotStar (.cat (.lit '+') reDotStar)),
  .cat (reStrS "INSERT") (.cat reDotStar (.cat (.lit '+') reDotStar)),
  .cat (.lit '$') (.cat (reStrS "query") (.cat reDotStar (.lit '+'))),
  .cat (.group 1 (.alt (reStrS "execute") (reStrS "query")))
    (.cat reDotStar (.cat (.lit '%') (.lit 's')))]

/-- `/(innerHTML|outerHTML|document\.write|eval)\s*[\+=]/g` -/
def xssRe : RE :=
  .cat (.group 1 (reAlts [reStrS "innerHTML", reStrS "outerHTML",
    reStrS "document.write", reStrS "eval"]))
    (.cat (.star false reSpace) (.cls false [('+', '+'), ('=', '=')]))

/-- `/password.*=|token.*=|(api_key|secret|private_key).*=/gi` -/
def secrecyLeakRe : RE := reAlts [
  .cat (reStrS "password") (.cat reDotStar (.lit '=')),
  .cat (reStrS "token") (.cat reDotStar (.lit '=')),
  .cat (.group 1 (reAlts [reStrS "api_key", reStrS "secret", reStrS "private_key"]))
    (.cat reDotStar (.lit '='))]

/-- `/Math\.random|rand\(\)|srand\(time/g` -/
def insecureRandomRe : RE := reAlts [
  reStrS "Math.random", reStrS "rand()", reStrS "srand(time"]

/-- `/(pickle|unserialize|yaml\.load)\(/g` -/
def unsafeDeserializeRe : RE :=
  .cat (.group 1 (reAlts [reStrS "pickle", reStrS "unserialize", reStrS "yaml.load"]))
    (.lit '(')

/-- `/class\s+(\w+)/` — used (case-sensitively) by the Python, JS and MQL5
extractors; the MQL5 extractor passes the `i` flag at the call site of the
matcher. -/
def classRe : RE :=
  .cat (reStrS "class") (.cat (rePlus reSpace) (.group 1 (rePlus reWord)))

/-- `/(?:function\s+(\w+)|\w+\s*=.*?\(|const\s+(\w+)\s*=.*?\()/` -/
def jsFuncRe : RE := reAlts [
  .cat (reStrS "function") (.cat (rePlus reSpace) (.group 1 (rePlus reWord))),
  .cat (rePlus reWord) (.cat (.star false reSpace)
    (.cat (.lit '=') (.cat reDotStarLazy (.lit '(')))),
  .cat (reStrS "const") (.cat (rePlus reSpace) (.cat (.group 2 (rePlus reWord))
    (.cat (.star false reSpace) (.cat (.lit '=') (.cat reDotStarLazy (.lit '('))))))]

/-- `/def\s+(\w+)/` -/
def pyFuncRe : RE :=
  .cat (reStrS "def") (.cat (rePlus reSpace) (.group 1 (rePlus reWord)))

/-- `/(?:class|struct)\s+(\w+)/` -/
def cppClassRe : RE :=
  .cat (.alt (reStrS "class") (reStrS "struct"))
    (.cat (rePlus reSpace) (.group 1 (rePlus reWord)))

/-- The character class `[a-zA-Z0-9_*\s&]`. -/
def cppTypeCls : RE :=
  .cls false ([('a', 'z'), ('A', 'Z'), ('0', '9'), ('_', '_'), ('*', '*'),
    ('&', '&')] ++ jsWhitespace.map (fun c => (c, c)))

/-- `[^)]*` -/
def reArgs : RE := .star false (.cls true [(')', ')')])

/-- `/(?:[a-zA-Z_][a-zA-Z0-9_*\s&]+\s+)?(\w+)\s*\([^)]*\)\s*{/` -/
def cppFuncRe : RE :=
  .cat (reOpt (.cat (.cls false [('a', 'z'), ('A', 'Z'), ('_', '_')])
    (.cat (rePlus cppTypeCls) (rePlus reSpace))))
    (.cat (.group 1 (rePlus reWord)) (.cat (.star false reSpace)
      (.cat (.lit '(') (.cat reArgs (.cat (.lit ')')
        (.cat (.star false reSpace) (.lit '\x7b')))))))

/-- `/(\w+)\s*\([^)]*\)\s*{/` -/
def cppMemberRe : RE :=
  .cat (.group 1 (rePlus reWord)) (.cat (.star false reSpace)
    (.cat (.lit '(') (.cat reArgs (.cat (.lit ')')
      (.cat (.star false reSpace) (.lit '\x7b'))))))

/-- `/(?:int|double|bool|void|string|datetime)\s+(\w+)\s*\([^)]*\)\s*{/i` -/
def mql5FuncRe : RE :=
  .cat (reAlts [reStrS "int", reStrS "double", reStrS "bool", reStrS "void",
    reStrS "string", reStrS "datetime"])
    (.cat (rePlus reSpace) (.cat (.group 1 (rePlus reWord))
      (.cat (.star false reSpace) (.cat (.lit '(') (.cat reArgs
        (.cat (.lit ')') (.cat (.star false reSpace) (.lit '\x7b'))))))))

/-- `/(?:extern|input)\s+(?:int|double|bool|string|datetime)\s+(\w+)/i` -/
def mql5VarRe : RE :=
  .cat (.alt (reStrS "extern") (reStrS "input"))
    (.cat (rePlus reSpace) (.cat (reAlts [reStrS "int", reStrS "double",
      reStrS "bool", reStrS "string", reStrS "datetime"])
      (.cat (rePlus reSpace) (.group 1 (rePlus reWord)))))

/-- `/(OnInit|OnDeinit|OnTick|OnTimer|OnTrade|OnTester)\s*\(/i` -/
def mql5EventRe : RE :=
  .cat (.group 1 (reAlts [reStrS "OnInit", reStrS "OnDeinit", reStrS "OnTick",
    reStrS "OnTimer", reStrS "OnTrade", reStrS "OnTester"]))
    (.cat (.star false reSpace) (.lit '('))

/-- `/function\s+\w+|def\s+\w+|\w+\s*\([^)]*\)\s*{/` — the function-definition
seed pattern of `extractFunctionPatterns`. -/
def funcPatternRe : RE := reAlts [
  .cat (reStrS "function") (.cat (rePlus reSpace) (rePlus reWord)),
  .cat (reStrS "def") (.cat (rePlus reSpace) (rePlus reWord)),
  .cat (rePlus reWord) (.cat (.star false reSpace)
    (.cat (.lit '(') (.cat reArgs (.cat (.lit ')')
      (.cat (.star false reSpace) (.lit '\x7b'))))))]

/-! ## Data model -/

structure SecurityVulnerability where
  type : String
  severity : String
  file : String
  line : Nat
  column : Int
  description : String
  recommendation : String
deriving DecidableEq, Repr

structure CodeClone where
  type : String
  primaryFile : String
  cloneFiles : List String
  startLine : Nat
  endLine : Nat
  length : Nat
  similarity : ℚ
  cloneContent : List Char
  risk : String
  refactoringOpportunity : String
deriving DecidableEq, Repr

structure QualityMetrics where
  cyclomaticComplexity : ℚ
  maintainabilityIndex : ℚ
  technicalDebtHours : ℚ
  duplicationPercentage : ℚ
  testCoverage : ℚ
deriving DecidableEq, Repr

structure CloneMetrics where
  totalClones : Nat
  totalDuplicatedLines : Nat
  duplicationPercentage : ℚ
  largestClone : Nat
  mostClonedFile : String
  cloneDistribution : List (String × Nat)
deriving DecidableEq, Repr

/-- `name` is an `Option` because the JavaScript source can store
`undefined` in this field (see `extractJSEntities`), even though the
`CodeEntity` interface declares `name: string`. -/
structure CodeEntity where
  type : String
  name : Option (List Char)
  filePath : String
  lineNumber : Nat
  codeSnippet : List Char
  dependencies : List String
  securityRisks : List String
  qualityIssues : List String
deriving DecidableEq, Repr

/-! ## Security rule engine (`analyzeSecurity`) -/

/-- The `securityPatterns` table, in `Object.entries` (insertion) order;
the boolean records the `i` flag. -/
def securityPatterns : List (String × RE × Bool) := [
  ("sql_injection", sqlInjectionRe, false),
  ("xss", xssRe, false),
  ("secrecy_leak", secrecyLeakRe, true),
  ("insecure_random", insecureRandomRe, false),
  ("unsafe_deserialize", unsafeDeserializeRe, false)]

/-- The `switch (patternName)` assigning severity, description and
recommendation; the fall-through default keeps the initial values
`('low', '', '')`. -/
def ruleMeta (patternName : String) : String × String × String :=
  match patternName with
  | "sql_injection" => ("critical", "Potential SQL injection vulnerability",
      "Use parameterized queries or prepared statements")
  | "xss" => ("high", "Potential XSS vulnerability",
      "Sanitize user input and use innerText/textContent")
  | "secrecy_leak" => ("critical", "Potential secret exposure",
      "Use environment variables or secure secret management")
  | "insecure_random" => ("medium", "Insecure random number generation",
      "Use cryptographically secure random generators")
  | "unsafe_deserialize" => ("critical", "Unsafe deserialization",
      "Validate serialized data and use safe deserialization")
  | _ => ("low", "", "")

/-- `line.indexOf(line.match(regex)![0]) + 1`: the 1-based column of the
first occurrence of the first matched substring.  The `none` branch is
unreachable when the rule's `test` succeeded (a match from `lastIndex`
is also a match from 0). -/
def secColumn (ci : Bool) (r : RE) (line : List Char) : Int :=
  match findMatchFrom ci r line 0 with
  | some (a, e, _) => jsIndexOf line (strSlice line a e) + 1
  | none => 0

/-- One rule applied to one line, with the rule's current `lastIndex`
`li`.  On success the body of the `if` evaluates `line.match(regex)`,
and `String.prototype.match` on a g-flagged regex sets `lastIndex` to 0
and finishes with a failed `RegExpBuiltinExec`, which leaves
`lastIndex = 0`; on failure `test` itself resets `lastIndex` to 0. -/
def ruleStep (fp : String) (i : Nat) (line : List Char)
    (nm : String) (r : RE) (ci : Bool) (li : Nat) :
    Option SecurityVulnerability × Nat :=
  match jsTestG ci r line li with
  | (true, _) =>
    (some { type := nm, severity := (ruleMeta nm).1, file := fp, line := i + 1,
            column := secColumn ci r line,
            description := (ruleMeta nm).2.1,
            recommendation := (ruleMeta nm).2.2 }, 0)
  | (false, li2) => (none, li2)

/-- The inner `for (const [patternName, regex] of Object.entries(securityPatterns))`
loop over one line: threads the per-rule `lastIndex` list `sts`. -/
def scanLine (fp : String) (i : Nat) (line : List Char) :
    List (String × RE × Bool) → List Nat → List SecurityVulnerability × List Nat
  | [], _ => ([], [])
  | (nm, r, ci) :: rs, sts =>
    let p := ruleStep fp i line nm r ci (sts.headD 0)
    let q := scanLine fp i line rs sts.tail
    (match p.1 with
     | some v => v :: q.1
     | none => q.1, p.2 :: q.2)

/-- The outer loop over lines, threading the shared regex states. -/
def secScan (fp : String) : List (List Char) → Nat → List Nat → List SecurityVulnerability
  | [], _, _ => []
  | l :: rest, i, sts =>
    let p := scanLine fp i l securityPatterns sts
    p.1 ++ secScan fp rest (i + 1) p.2

/-- `analyzeSecurity(content, filePath)`. -/
def analyzeSecurity (content : String) (fp : String) : List SecurityVulnerability :=
  secScan fp (jsLines content.data) 0 (List.replicate securityPatterns.length 0)

/-- The findings a single line yields when every rule is evaluated with a
fresh (`lastIndex = 0`) regex — the per-line-independent reading of the
specification. -/
def lineFindings (fp : String) (i : Nat) (line : List Char) : List SecurityVulnerability :=
  securityPatterns.filterMap (fun t => (ruleStep fp i line t.1 t.2.1 t.2.2 0).1)

/-- Per-line independent scan over a list of lines.  Modelled from the spec:
"a rule matching is evaluated independently per line (no cross-line state)". -/
def secScanIndependent (fp : String) : List (List Char) → Nat → List SecurityVulnerability
  | [], _ => []
  | l :: rest, i => lineFindings fp i l ++ secScanIndependent fp rest (i + 1)

/-- The specification's per-line-independent security scanner. -/
def analyzeSecurityIndependent (content : String) (fp : String) : List SecurityVulnerability :=
  secScanIndependent fp (jsLines content.data) 0

/-- The number of findings attributed to physical line `ln` with rule tag `nm`. -/
def vulnCount (vs : List SecurityVulnerability) (ln : Nat) (nm : String) : Nat :=
  vs.countP (fun v => decide (v.line = ln ∧ v.type = nm))

/-! ## Clone detector -/

/-- `line.split(/\s+/)`: the segments between maximal whitespace runs,
including the empty leading (resp. trailing) segment JavaScript produces
when the string starts (resp. ends) with whitespace.  `prevSpace`
records whether the previous character belonged to a separator run (so
that a run of whitespace acts as one separator). -/
def splitWsGo (prevSpace : Bool) (cur : List Char) : List Char → List (List Char)
  | [] => [cur.reverse]
  | c :: rest =>
    if isJsSpace c then
      if prevSpace then splitWsGo true cur rest
      else cur.reverse :: splitWsGo true [] rest
    else splitWsGo false (c :: cur) rest

def jsSplitWs (s : List Char) : List (List Char) := splitWsGo false [] s

/-- `calculateLineSimilarity`: word-overlap ratio of tokens longer than
2 characters, as a percentage. -/
def calculateLineSimilarity (line1 line2 : List Char) : ℚ :=
  if line1 = line2 then 100
  else
    let words1 := (jsSplitWs line1).filter (fun w => 2 < w.length)
    let words2 := (jsSplitWs line2).filter (fun w => 2 < w.length)
    let commonWords := (words1.filter (fun w => words2.contains w)).length
    let totalWords := max words1.length words2.length
    if 0 < totalWords then ((commonWords : ℚ) / totalWords) * 100 else 0

/-- The inner `while` of `findExactClones`: the number of consecutive
line pairs (from the heads of the two suffixes) whose trimmed texts are
equal. -/
def exactLen : List (List Char) → List (List Char) → Nat
  | a :: xs, b :: ys => if jsTrim a = jsTrim b then exactLen xs ys + 1 else 0
  | _, _ => 0

/-- The body of one `(i, j)` iteration of `findExactClones`: the clone
built when the extension length reaches the minimum of 5, `none`
otherwise. -/
def exactCandidate (lines1 lines2 : List (List Char)) (file1 file2 : String)
    (i j : Nat) : Option CodeClone :=
  let m := exactLen (lines1.drop i) (lines2.drop j)
  if 5 ≤ m then
    some { type := "exact", primaryFile := file1, cloneFiles := [file2],
           startLine := i + 1, endLine := i + m, length := m, similarity := 100,
           cloneContent := joinLines ((lines1.drop i).take m),
           risk := if 20 < m then "high" else if 10 < m then "medium" else "low",
           refactoringOpportunity := "Extract to shared utility function" }
  else none

/-- `if (!bestClone || matchLength > bestClone.length) bestClone = clone`. -/
def betterExact (best cand : Option CodeClone) : Option CodeClone :=
  match cand with
  | none => best
  | some clone =>
    match best with
    | none => some clone
    | some b => if b.length < clone.length then some clone else some b

/-- `findExactClones(content1, content2, file1, file2)`. -/
def findExactClones (content1 content2 : String) (file1 file2 : String) :
    Option CodeClone :=
  let lines1 := jsLines content1.data
  let lines2 := jsLines content2.data
  (List.range (lines1.length + 1 - 5)).foldl (fun best i =>
    (List.range (lines2.length + 1 - 5)).foldl (fun best j =>
      betterExact best (exactCandidate lines1 lines2 file1 file2 i j)) best) none

/-- The inner `while` of `findNearClones`: extends the window while lines
are trim-equal (adding 100) or have line similarity above 70 (adding that
similarity); returns (matchLength, accumulated similarity). -/
def nearScan : List (List Char) → List (List Char) → Nat × ℚ
  | a :: xs, b :: ys =>
    let l1 := jsTrim a
    let l2 := jsTrim b
    if l1 = l2 then
      let r := nearScan xs ys
      (r.1 + 1, r.2 + 100)
    else if 70 < calculateLineSimilarity l1 l2 then
      let r := nearScan xs ys
      (r.1 + 1, r.2 + calculateLineSimilarity l1 l2)
    else (0, 0)
  | _, _ => (0, 0)

/-- The body of one `(i, j)` iteration of `findNearClones`: the clone
built when the window has length at least 3 and an average similarity in
`[80, 100)`, `none` otherwise. -/
def nearCandidate (lines1 lines2 : List (List Char)) (file1 file2 : String)
    (i j : Nat) : Option CodeClone :=
  let sc := nearScan (lines1.drop i) (lines2.drop j)
  if 3 ≤ sc.1 then
    let avgSimilarity := sc.2 / (sc.1 : ℚ)
    if 80 ≤ avgSimilarity ∧ avgSimilarity < 100 then
      some { type := "near", primaryFile := file1, cloneFiles := [file2],
             startLine := i + 1, endLine := i + sc.1, length := sc.1,
             similarity := avgSimilarity,
             cloneContent := joinLines ((lines1.drop i).take sc.1),
             risk := if 90 < avgSimilarity then "medium" else "low",
             refactoringOpportunity := "Consider consolidating similar implementations" }
    else none
  else none

/-- `if (!bestClone || avgSimilarity > bestClone.similarity) bestClone = clone`. -/
def betterNear (best cand : Option CodeClone) : Option CodeClone :=
  match cand with
  | none => best
  | some clone =>
    match best with
    | none => some clone
    | some b => if b.similarity < clone.similarity then some clone else some b

/-- `findNearClones(content1, content2, file1, file2)`. -/
def findNearClones (content1 content2 : String) (file1 file2 : String) :
    Option CodeClone :=
  let lines1 := jsLines content1.data
  let lines2 := jsLines content2.data
  (List.range (lines1.length + 1 - 3)).foldl (fun best i =>
    (List.range (lines2.length + 1 - 3)).foldl (fun best j =>
      betterNear best (nearCandidate lines1 lines2 file1 file2 i j)) best) none

structure FunctionPattern where
  startLine : Nat
  endLine : Nat
  lines : Nat
  content : List Char
deriving DecidableEq, Repr

/-- `(lines[j].match(/\{/g) || []).length − (lines[j].match(/\}/g) || []).length`. -/
def braceDelta (l : List Char) : Int :=
  (l.countP (fun c => c == '\x7b') : Int) - (l.countP (fun c => c == '\x7d') : Int)

/-- The inner brace-counting loop of `extractFunctionPatterns`, started
at seed line `i`: scans lines `j = i, i+1, …`, accumulating the brace
balance, and stops at the first `j > i` where the balance is ≤ 0; if the
scan exhausts the file, `endLine` keeps its initial value `i`. -/
def fnEndScan (i : Nat) : List (List Char) → Nat → Int → Nat
  | [], _, _ => i
  | l :: rest, j, bc =>
    let bc2 := bc + braceDelta l
    if bc2 ≤ 0 ∧ i < j then j else fnEndScan i rest (j + 1) bc2

def findFnEnd (ls : List (List Char)) (i : Nat) : Nat := fnEndScan i (ls.drop i) i 0

/-- `extractFunctionPatterns(content)`. -/
def extractFunctionPatterns (content : List Char) : List FunctionPattern :=
  let lines := jsLines content
  (List.range lines.length).filterMap (fun i =>
    if (jsMatch false funcPatternRe (lines.getD i [])).isSome then
      let e := findFnEnd lines i
      some { startLine := i + 1, endLine := e + 1, lines := e - i,
             content := joinLines ((lines.drop i).take (e + 1 - i)) }
    else none)

/-- `content.replace(/\s+/g, ' ')`: each maximal whitespace run becomes
a single space (`prevSpace` marks that the run was already replaced). -/
def collapseWsGo (prevSpace : Bool) : List Char → List Char
  | [] => []
  | c :: rest =>
    if isJsSpace c then
      if prevSpace then collapseWsGo true rest
      else ' ' :: collapseWsGo true rest
    else c :: collapseWsGo false rest

def collapseWs (s : List Char) : List Char := collapseWsGo false s

/-- `calculateFunctionSimilarity(pattern1, pattern2)`.  When both spans
report 0 lines the JavaScript source computes `0/0 = NaN`, which
propagates and makes the `similarity >= 75` guard false; `none` models
that NaN. -/
def calculateFunctionSimilarity (p1 p2 : FunctionPattern) : Option ℚ :=
  if max p1.lines p2.lines = 0 then none
  else
    let lineDiff : ℚ := |(p1.lines : ℚ) - (p2.lines : ℚ)|
    let lineSimilarity := max 0 (100 - lineDiff / (max p1.lines p2.lines : ℚ) * 50)
    let contentSimilarity := calculateLineSimilarity
      ((collapseWs p1.content).take 100) ((collapseWs p2.content).take 100)
    some ((lineSimilarity + contentSimilarity) / 2)

/-- The nested `for`-loops of `findFunctionalClones`: the first span pair
(in iteration order) whose similarity is at least 75. -/
def firstFunctionalPair (ps1 ps2 : List FunctionPattern) :
    Option (FunctionPattern × ℚ) :=
  ps1.findSome? (fun p1 => ps2.findSome? (fun p2 =>
    match calculateFunctionSimilarity p1 p2 with
    | some s => if 75 ≤ s then some (p1, s) else none
    | none => none))

/-- `findFunctionalClones(content1, content2, file1, file2)`. -/
def findFunctionalClones (content1 content2 : String) (file1 file2 : String) :
    Option CodeClone :=
  match firstFunctionalPair (extractFunctionPatterns content1.data)
      (extractFunctionPatterns content2.data) with
  | some (p1, s) => some {
      type := "functional", primaryFile := file1, cloneFiles := [file2],
      startLine := p1.startLine, endLine := p1.endLine, length := p1.lines,
      similarity := s, cloneContent := p1.content,
      risk := if 90 < s then "medium" else "low",
      refactoringOpportunity := "Consider strategy pattern or shared interface" }
  | none => none

/-- The file contents the collaborator layer supplies: an association of
path to raw text, standing for `fs.readFileSync` on paths under the
codebase root (`path.resolve` is injective on the relative paths used
here, so keying by the relative path is faithful). -/
abbrev FileSystem := List (String × String)

/-- The ordered `i < j` pair iteration of `analyzeCodeClones`. -/
def pairsOf : List String → List (String × String)
  | [] => []
  | x :: rest => rest.map (fun y => (x, y)) ++ pairsOf rest

/-- One pair-iteration of `analyzeCodeClones` for a given finder:
read both files and run the finder; a pair with an unreadable file is
skipped by the `catch`. -/
def clonePair (find : String → String → String → String → Option CodeClone)
    (fs : FileSystem) (pq : String × String) : Option CodeClone :=
  match fs.lookup pq.1, fs.lookup pq.2 with
  | some c1, some c2 => find c1 c2 pq.1 pq.2
  | _, _ => none

/-- The exact-clone accumulation of `analyzeCodeClones`: one
`findExactClones` result per readable pair. -/
def exactClonesFor (fs : FileSystem) (ps : List String) : List CodeClone :=
  (pairsOf ps).filterMap (clonePair findExactClones fs)

/-- The near-clone accumulation of `analyzeCodeClones`. -/
def nearClonesFor (fs : FileSystem) (ps : List String) : List CodeClone :=
  (pairsOf ps).filterMap (clonePair findNearClones fs)

/-- The functional-clone accumulation of `analyzeCodeClones`. -/
def functionalClonesFor (fs : FileSystem) (ps : List String) : List CodeClone :=
  (pairsOf ps).filterMap (clonePair findFunctionalClones fs)

/-- `allClones.reduce((sum, clone) => sum + clone.length, 0)`. -/
def totalDuplicatedLinesOf (exactClones nearClones functionalClones : List CodeClone) : Nat :=
  (exactClones ++ nearClones ++ functionalClones).foldl (fun sum c => sum + c.length) 0

/-- `filePaths.reduce(...)`: total line count of the readable files,
unreadable files contributing nothing (the `catch`). -/
def totalLinesOf (filePaths : List String) (fs : FileSystem) : Nat :=
  filePaths.foldl (fun sum f =>
    match fs.lookup f with
    | some c => sum + (jsLines c.data).length
    | none => sum) 0

/-- `Map.set` bookkeeping of `fileCloneCount`: insertion order preserved,
an existing key incremented in place. -/
def bumpCount (m : List (String × Nat)) (k : String) : List (String × Nat) :=
  match m with
  | [] => [(k, 1)]
  | (k2, n) :: rest => if k2 = k then (k2, n + 1) :: rest else (k2, n) :: bumpCount rest k

/-- `Array.from(entries).sort(([,a],[,b]) => b - a)[0]?.[0] || ''`: the
first key of the stable descending sort by count, i.e. the earliest key
holding the maximum count; `''` when the map is empty (and the `|| ''`
is the identity on the possible keys here). -/
def firstMaxKeyAux (k : String) (n : Nat) : List (String × Nat) → String
  | [] => k
  | (k2, n2) :: rest =>
    if n < n2 then firstMaxKeyAux k2 n2 rest else firstMaxKeyAux k n rest

def firstMaxKey : List (String × Nat) → String
  | [] => ""
  | (k, n) :: rest => firstMaxKeyAux k n rest

/-- `calculateCloneMetrics(exactClones, nearClones, functionalClones, filePaths)`. -/
def calculateCloneMetrics (exactClones nearClones functionalClones : List CodeClone)
    (filePaths : List String) (fs : FileSystem) : CloneMetrics :=
  let allClones := exactClones ++ nearClones ++ functionalClones
  let totalDuplicatedLines := totalDuplicatedLinesOf exactClones nearClones functionalClones
  let totalLines := totalLinesOf filePaths fs
  let fileCloneCount := allClones.foldl (fun m c =>
    c.cloneFiles.foldl (fun m2 cf => bumpCount m2 cf) (bumpCount m c.primaryFile)) []
  { totalClones := allClones.length,
    totalDuplicatedLines := totalDuplicatedLines,
    duplicationPercentage :=
      if 0 < totalLines then ((totalDuplicatedLines : ℚ) / totalLines) * 100 else 0,
    largestClone := allClones.foldl (fun m c => max m c.length) 0,
    mostClonedFile := firstMaxKey fileCloneCount,
    cloneDistribution := fileCloneCount }

/-! ## Quality metric calculator -/

/-- The inner `break`-on-first-equal loop of `calculateDuplication`. -/
def dupScanBreak (x : List Char) : List (List Char) → Bool
  | [] => false
  | y :: rest => if x = y then true else dupScanBreak x rest

/-- The outer loop of `calculateDuplication`: each index contributes 1
exactly when some later trimmed line equals it (the `break` counts each
line at most once). -/
def dupCount : List (List Char) → Nat
  | [] => 0
  | x :: rest => (if dupScanBreak x rest then 1 else 0) + dupCount rest

/-- `calculateDuplication(lines)`: note the filter keeps trimmed lines of
length strictly greater than 10. -/
def calculateDuplication (lines : List (List Char)) : ℚ :=
  let trimmedLines := (lines.map jsTrim).filter (fun l => 10 < l.length)
  let duplicatedLines := dupCount trimmedLines
  if 0 < lines.length then ((duplicatedLines : ℚ) / (lines.length : ℚ)) * 100 else 0

/-- Modelled from the spec: "naive O(n²) pairwise comparison of trimmed
lines ≥ 10 characters … result = duplicatedLines / totalLines × 100" —
identical to `calculateDuplication` except that the filter keeps lines of
length at least 10 (the claim under test). -/
def specCalculateDuplication (lines : List (List Char)) : ℚ :=
  let trimmedLines := (lines.map jsTrim).filter (fun l => 10 ≤ l.length)
  let duplicatedLines := dupCount trimmedLines
  if 0 < lines.length then ((duplicatedLines : ℚ) / (lines.length : ℚ)) * 100 else 0

/-- `line.trim().startsWith('#') || line.trim().startsWith('//')`. -/
def isCommentLine (l : List Char) : Bool :=
  ['#'].isPrefixOf (jsTrim l) || ['/', '/'].isPrefixOf (jsTrim l)

/-- `calculateMaintainabilityIndex(lines)` over the reals.
JavaScript evaluates `Math.log(0) = -Infinity`, so at `LOC = 0` the raw
value is `+Infinity` and the clamp yields 171; the Lean model's junk
value `Real.log 0 = 0` likewise leaves the raw value above 171 (the sine
term is positive), so the clamped results agree at every input. -/
noncomputable def calculateMaintainabilityIndex (lines : List (List Char)) : ℝ :=
  let loc := lines.length
  let comments := (lines.filter isCommentLine).length
  let commentRatio : ℝ := if 0 < loc then ((comments : ℝ) / (loc : ℝ)) * 100 else 0
  let mi : ℝ := 171 - 5.2 * Real.log (loc : ℝ) - 0.23 * commentRatio
    + 50 * Real.sin (Real.sqrt (2.4 * 0.1))
  max 0 (min 171 mi)

/-- `calculateOverallQualityScore(metrics)`: note the maintainability
component is not floored at 0 in the source. -/
def calculateOverallQualityScore (metrics : QualityMetrics) : ℚ :=
  let complexityScore := max 0 (100 - metrics.cyclomaticComplexity * 2)
  let maintainabilityScore := metrics.maintainabilityIndex / 171 * 100
  let duplicationScore := max 0 (100 - metrics.duplicationPercentage)
  let debtScore := max 0 (100 - metrics.technicalDebtHours)
  (complexityScore + maintainabilityScore + duplicationScore + debtScore) / 4

/-- `calculateQualityGrade(metrics)`. -/
def calculateQualityGrade (metrics : QualityMetrics) : String :=
  let score := calculateOverallQualityScore metrics
  if 90 ≤ score then "A (Excellent)"
  else if 80 ≤ score then "B (Good)"
  else if 70 ≤ score then "C (Fair)"
  else if 60 ≤ score then "D (Poor)"
  else "F (Fail)"

/-- Modelled from the spec: the claim's overall score, with all four
components — including the maintainability one — floored at 0. -/
def claimOverallQualityScore (metrics : QualityMetrics) : ℚ :=
  (max 0 (100 - metrics.cyclomaticComplexity * 2)
    + max 0 (metrics.maintainabilityIndex / 171 * 100)
    + max 0 (100 - metrics.duplicationPercentage)
    + max 0 (100 - metrics.technicalDebtHours)) / 4

/-! ## Language classifier and entity extractors -/

/-- `path.extname` / `path.basename`: the basename is the segment after
the last `/`; the extension is the basename's suffix from its last `.`
when that dot is not the first character, `''` otherwise. -/
def basename (p : List Char) : List Char := (jsSplit '/' p).getLastD []

def extnameOf (base : List Char) : List Char :=
  match ((List.range base.length).filter
      (fun i => decide (1 ≤ i) && (base.getD i ' ' == '.'))).getLast? with
  | some i => base.drop i
  | none => []

def extname (p : List Char) : List Char := extnameOf (basename p)

/-- `path.basename(filePath, path.extname(filePath))`: strips the
extension suffix when it is a proper suffix of the basename. -/
def basenameNoExt (p : List Char) : List Char :=
  let b := basename p
  let e := extname p
  if e ≠ [] ∧ e.isSuffixOf b ∧ b ≠ e then b.take (b.length - e.length) else b

/-- The `langMap` literal of `detectLanguage`, in source order. -/
def langMap : List (String × String) := [
  (".py", "python"), (".js", "javascript"), (".ts", "typescript"),
  (".cpp", "cpp"), (".cc", "cpp"), (".cxx", "cpp"), (".c", "c"),
  (".h", "cpp"), (".hpp", "cpp"), (".mq5", "mql5"), (".mqh", "mql5")]

/-- `detectLanguage(extension)`: `langMap[extension] || 'unknown'`. -/
def detectLanguage (extension : String) : String :=
  match langMap.lookup extension with
  | some l => l
  | none => "unknown"

/-- Shared constant fields of every constructed entity. -/
def mkEntity (type : String) (name : Option (List Char)) (filePath : String)
    (lineNumber : Nat) (snippet : List Char) : CodeEntity :=
  { type := type, name := name, filePath := filePath, lineNumber := lineNumber,
    codeSnippet := snippet, dependencies := [], securityRisks := [],
    qualityIssues := [] }

/-- `extractPythonEntities(content, filePath)`. -/
def extractPythonEntities (content : String) (filePath : String) : List CodeEntity :=
  let lines := jsLines content.data
  (List.range lines.length).flatMap (fun i =>
    let line := lines.getD i []
    (match jsMatch false classRe line with
     | some t => [mkEntity "class" (capGet t.2.2 1 line) filePath (i + 1) (jsTrim line)]
     | none => []) ++
    (match jsMatch false pyFuncRe line with
     | some t => [mkEntity "function" (capGet t.2.2 1 line) filePath (i + 1) (jsTrim line)]
     | none => []))

/-- `extractJSEntities(content, filePath)`.  The function branch computes
`funcMatch[1] || funcMatch[2]` (both groups are `(\w+)`, so a present
capture is non-empty and JavaScript truthiness coincides with
definedness) and pushes with the guard
`funcName && !line.includes('=') || line.includes('function')` — the
pushed `name` is `undefined` when the middle alternative matched. -/
def extractJSEntities (content : String) (filePath : String) : List CodeEntity :=
  let lines := jsLines content.data
  (List.range lines.length).flatMap (fun i =>
    let line := lines.getD i []
    (match jsMatch false classRe line with
     | some t => [mkEntity "class" (capGet t.2.2 1 line) filePath (i + 1) (jsTrim line)]
     | none => []) ++
    (match jsMatch false jsFuncRe line with
     | some t =>
       let funcName := (capGet t.2.2 1 line).or (capGet t.2.2 2 line)
       if (funcName.isSome ∧ ¬ jsIncludes line "=".data)
           ∨ jsIncludes line "function".data then
         [mkEntity "function" funcName filePath (i + 1) (jsTrim line)]
       else []
     | none => []))

/-- `extractCppEntities(content, filePath)`. -/
def extractCppEntities (content : String) (filePath : String) : List CodeEntity :=
  let lines := jsLines content.data
  (List.range lines.length).flatMap (fun i =>
    let line := lines.getD i []
    (match jsMatch false cppClassRe line with
     | some t => [mkEntity "class" (capGet t.2.2 1 line) filePath (i + 1) (jsTrim line)]
     | none => []) ++
    (match jsMatch false cppFuncRe line with
     | some t =>
       if ¬ jsIncludes line "class".data ∧ ¬ jsIncludes line "struct".data then
         [mkEntity "function" (capGet t.2.2 1 line) filePath (i + 1) (jsTrim line)]
       else []
     | none => []) ++
    (match jsMatch false cppMemberRe line with
     | some t =>
       if jsIncludes line "::".data
           ∨ (0 < i ∧ jsIncludes (lines.getD (i - 1) []) "::".data) then
         [mkEntity "method" (capGet t.2.2 1 line) filePath (i + 1) (jsTrim line)]
       else []
     | none => []))

/-- `extractMQL5Entities(content, filePath)` (all patterns carry `i`). -/
def extractMQL5Entities (content : String) (filePath : String) : List CodeEntity :=
  let lines := jsLines content.data
  (List.range lines.length).flatMap (fun i =>
    let line := lines.getD i []
    (match jsMatch true classRe line with
     | some t => [mkEntity "class" (capGet t.2.2 1 line) filePath (i + 1) (jsTrim line)]
     | none => []) ++
    (match jsMatch true mql5FuncRe line with
     | some t => [mkEntity "function" (capGet t.2.2 1 line) filePath (i + 1) (jsTrim line)]
     | none => []) ++
    (match jsMatch true mql5VarRe line with
     | some t => [mkEntity "variable" (capGet t.2.2 1 line) filePath (i + 1) (jsTrim line)]
     | none => []) ++
    (match jsMatch true mql5EventRe line with
     | some t => [mkEntity "function" (capGet t.2.2 1 line) filePath (i + 1) (jsTrim line)]
     | none => []))

/-- `extractGenericEntities(content, filePath)`: the one-`module`-entity
fallback for unknown languages. -/
def extractGenericEntities (_content : String) (filePath : String) : List CodeEntity :=
  [mkEntity "module" (some (basenameNoExt filePath.data)) filePath 1
    ("module ".data ++ basename filePath.data)]

/-- `extractEntities(content, filePath)`: language dispatch on the
lower-cased extension. -/
def extractEntities (content : String) (filePath : String) : List CodeEntity :=
  let extension := String.mk (jsToLower (extname filePath.data))
  let language := detectLanguage extension
  match language with
  | "python" => extractPythonEntities content filePath
  | "javascript" => extractJSEntities content filePath
  | "typescript" => extractJSEntities content filePath
  | "cpp" => extractCppEntities content filePath
  | "c" => extractCppEntities content filePath
  | "mql5" => extractMQL5Entities content filePath
  | _ => extractGenericEntities content filePath

/-! ## Declarative reformulations and concrete instances used by the theorems -/

/-- The membership reading of the duplicated-line count: an index is
counted (once) exactly when an equal trimmed line occurs later in the
file. -/
def dupCountMem : List (List Char) → Nat
  | [] => 0
  | x :: rest => (if x ∈ rest then 1 else 0) + dupCountMem rest

/-- The language-tag set of the specification. -/
def languageTags : List String :=
  ["python", "javascript", "typescript", "cpp", "c", "mql5", "unknown"]

/-- A placeholder clone used only to name the result of a concrete
`Option CodeClone` computation in witnesses. -/
def defaultClone : CodeClone :=
  { type := "", primaryFile := "", cloneFiles := [], startLine := 0,
    endLine := 0, length := 0, similarity := 0, cloneContent := [],
    risk := "", refactoringOpportunity := "" }

/-- Ten identical lines, the input of the end-to-end clone scenario. -/
def tenLinesC : String :=
  "aaaa\naaaa\naaaa\naaaa\naaaa\naaaa\naaaa\naaaa\naaaa\naaaa"

/-- A corpus of four identical ten-line files. -/
def fourFileFs : FileSystem :=
  [("f1", tenLinesC), ("f2", tenLinesC), ("f3", tenLinesC), ("f4", tenLinesC)]

def fourFilePaths : List String := ["f1", "f2", "f3", "f4"]

/-- A two-file corpus of the same ten-line file. -/
def twoFileFs : FileSystem := [("f1", tenLinesC), ("f2", tenLinesC)]

def twoFilePaths : List String := ["f1", "f2"]

/-- Contents producing a near clone: two identical lines followed by a
similar (75%-overlap) third line. -/
def nearContentA : String :=
  "alpha beta gamma one\nalpha beta gamma one\nalpha beta gamma one"

def nearContentB : String :=
  "alpha beta gamma one\nalpha beta gamma one\nalpha beta gamma two"

/-- A two-line function, seed of a functional clone whose span is
`startLine 1, endLine 2` with `lines = 1`. -/
def funcContent : String := "function foo() \x7b\n\x7d"

/-- A `QualityMetrics` value with a negative maintainability index. -/
def negMaintMetrics : QualityMetrics :=
  { cyclomaticComplexity := 0, maintainabilityIndex := -171,
    technicalDebtHours := 0, duplicationPercentage := 0, testCoverage := 0 }

/-- A `QualityMetrics` value scoring 100. -/
def perfectMetrics : QualityMetrics :=
  { cyclomaticComplexity := 0, maintainabilityIndex := 171,
    technicalDebtHours := 0, duplicationPercentage := 0, testCoverage := 0 }

/-- Two identical trimmed lines of exactly 10 characters. -/
def tenCharDupLines : List (List Char) := jsLines "abcdefghij\nabcdefghij".data

/-- Two consecutive identical lines matching the `insecure_random` rule. -/
def twoRandomLines : String := "Math.random\nMath.random"

/-- The JS line on which `extractJSEntities` stores `undefined` as a name. -/
def undefNameLine : String := "x = function () \x7b"

/-! ## Helper lemmas -/

theorem foldl_preserve {α β : Type _} (P : β → Prop) (f : β → α → β) :
    ∀ (l : List α) (init : β), P init → (∀ acc x, P acc → P (f acc x)) →
      P (l.foldl f init) := by
  intro l
  induction l with
  | nil => intro init h0 _; exact h0
  | cons x xs ih => intro init h0 hs; exact ih (f init x) (hs init x h0) hs

theorem dupScanBreak_iff (x : List Char) (l : List (List Char)) :
    dupScanBreak x l = true ↔ x ∈ l := by
  induction l with
  | nil => simp [dupScanBreak]
  | cons y rest ih => by_cases h : x = y <;> simp [dupScanBreak, h, ih]

theorem dupCount_eq_mem (l : List (List Char)) : dupCount l = dupCountMem l := by
  induction l with
  | nil => rfl
  | cons x rest ih =>
    by_cases h : x ∈ rest <;>
      simp [dupCount, dupCountMem, dupScanBreak_iff, h, ih]

theorem dupCount_le (l : List (List Char)) : dupCount l ≤ l.length := by
  induction l with
  | nil => simp [dupCount]
  | cons x rest ih =>
    have := ih
    simp only [dupCount, List.length_cons]
    split <;> omega

theorem dupCount_nodup (l : List (List Char)) (h : l.Nodup) : dupCount l = 0 := by
  induction l with
  | nil => rfl
  | cons x rest ih =>
    rw [List.nodup_cons] at h
    have hx : ¬ dupScanBreak x rest = true :=
      fun hc => h.1 ((dupScanBreak_iff x rest).mp hc)
    simp [dupCount, hx, ih h.2]

/-! ## C4: maintainability index -/

/-- C4: `calculateMaintainabilityIndex` equals the clamped formula
`171 − 5.2·ln(LOC) − 0.23·commentRatio + 50·sin(√0.24)` (that is its
definition above, translated from the source); for every input its value
lies in `[0, 171]`, and at `LOC = 0` (the empty line list) it is exactly
171 — in JavaScript because `Math.log(0) = −∞` pushes the raw value to
`+∞` before the clamp, and division by zero is avoided by the
`loc > 0` guard on the comment ratio. -/
theorem C4_maintainability_clamped :
    (∀ lines : List (List Char),
      0 ≤ calculateMaintainabilityIndex lines ∧
        calculateMaintainabilityIndex lines ≤ 171)
    ∧ calculateMaintainabilityIndex [] = 171 := by
  constructor
  · intro lines
    refine ⟨le_max_left 0 _, max_le (by norm_num) (min_le_left _ _)⟩
  · have hsin : 0 ≤ Real.sin (Real.sqrt (2.4 * 0.1)) := by
      apply Real.sin_nonneg_of_nonneg_of_le_pi (Real.sqrt_nonneg _)
      calc Real.sqrt (2.4 * 0.1) ≤ Real.sqrt 1 := Real.sqrt_le_sqrt (by norm_num)
        _ = 1 := Real.sqrt_one
        _ ≤ Real.pi := by linarith [Real.pi_gt_three]
    unfold calculateMaintainabilityIndex
    simp only [List.length_nil, List.filter_nil, lt_irrefl, if_false, Nat.cast_zero,
      Real.log_zero]
    rw [min_eq_left (by nlinarith), max_eq_right (by norm_num)]

/-! ## C5: per-file duplication percentage -/

/-- C5 counterexample: the source filter keeps trimmed lines of length
strictly greater than 10, so a file made of two identical 10-character
lines yields 0, while the claim's "length ≥ 10" reading yields 50. -/
theorem C5_counterexample :
    calculateDuplication tenCharDupLines = 0 ∧
    specCalculateDuplication tenCharDupLines = 50 ∧
    calculateDuplication tenCharDupLines ≠ specCalculateDuplication tenCharDupLines := by
  have hA : calculateDuplication tenCharDupLines = 0 := by
    simp only [calculateDuplication]
    rw [show dupCount ((tenCharDupLines.map jsTrim).filter (fun l => 10 < l.length)) = 0
      from by decide]
    rw [show tenCharDupLines.length = 2 from by decide]
    norm_num
  have hB : specCalculateDuplication tenCharDupLines = 50 := by
    simp only [specCalculateDuplication]
    rw [show dupCount ((tenCharDupLines.map jsTrim).filter (fun l => 10 ≤ l.length)) = 1
      from by decide]
    rw [show tenCharDupLines.length = 2 from by decide]
    norm_num
  exact ⟨hA, hB, by rw [hA, hB]; norm_num⟩

/-- C5 (amended: the filter keeps trimmed lines strictly longer than 10
characters): `calculateDuplication` returns `duplicatedLines /
totalLines × 100` where `totalLines` is the raw line count and
`duplicatedLines` counts each filtered trimmed line at most once, namely
exactly when an equal such line occurs later in the file (the membership
count `dupCountMem`); and the result is 0 when the filtered trimmed
lines are pairwise distinct. -/
theorem C5_duplication_formula (lines : List (List Char)) :
    calculateDuplication lines =
      (if 0 < lines.length then
        ((dupCountMem ((lines.map jsTrim).filter (fun l => 10 < l.length)) : ℚ)
          / (lines.length : ℚ)) * 100
       else 0)
    ∧ (((lines.map jsTrim).filter (fun l => 10 < l.length)).Nodup →
        calculateDuplication lines = 0) := by
  constructor
  · simp only [calculateDuplication]
    rw [dupCount_eq_mem]
  · intro h
    simp only [calculateDuplication]
    rw [dupCount_nodup _ h]
    split_ifs <;> simp

/-- C5 witness: a file with two distinct short lines has duplication 0. -/
theorem C5_witness : calculateDuplication (jsLines "abc\ndef".data) = 0 :=
  (C5_duplication_formula (jsLines "abc\ndef".data)).2 (by decide)

/-! ## C8: overall quality score and grade -/

/-- C8 counterexample: the maintainability component of
`calculateOverallQualityScore` is not floored at 0, so on a metrics
value with maintainability index −171 the source returns 50 while the
claim's all-floored formula gives 75. -/
theorem C8_counterexample :
    calculateOverallQualityScore negMaintMetrics = 50 ∧
    claimOverallQualityScore negMaintMetrics = 75 ∧
    calculateOverallQualityScore negMaintMetrics ≠
      claimOverallQualityScore negMaintMetrics := by
  have hA : calculateOverallQualityScore negMaintMetrics = 50 := by
    norm_num [calculateOverallQualityScore, negMaintMetrics, max_def]
  have hB : claimOverallQualityScore negMaintMetrics = 75 := by
    norm_num [claimOverallQualityScore, negMaintMetrics, max_def]
  exact ⟨hA, hB, by rw [hA, hB]; norm_num⟩

/-- C8 (amended: only the complexity, duplication and debt components
are floored at 0; the maintainability component `mi/171×100` is not):
the score is the average of the four components, and the grade letters
partition the score range at 90/80/70/60. -/
theorem C8_quality_score_grade (m : QualityMetrics) :
    calculateOverallQualityScore m =
      (max 0 (100 - 2 * m.cyclomaticComplexity) + m.maintainabilityIndex / 171 * 100
        + max 0 (100 - m.duplicationPercentage)
        + max 0 (100 - m.technicalDebtHours)) / 4
    ∧ (calculateQualityGrade m = "A (Excellent)" ↔
        90 ≤ calculateOverallQualityScore m)
    ∧ (calculateQualityGrade m = "B (Good)" ↔
        80 ≤ calculateOverallQualityScore m ∧ calculateOverallQualityScore m < 90)
    ∧ (calculateQualityGrade m = "C (Fair)" ↔
        70 ≤ calculateOverallQualityScore m ∧ calculateOverallQualityScore m < 80)
    ∧ (calculateQualityGrade m = "D (Poor)" ↔
        60 ≤ calculateOverallQualityScore m ∧ calculateOverallQualityScore m < 70)
    ∧ (calculateQualityGrade m = "F (Fail)" ↔
        calculateOverallQualityScore m < 60) := by
  constructor
  · unfold calculateOverallQualityScore
    ring_nf
  · simp only [calculateQualityGrade]
    split_ifs with h1 h2 h3 h4
    all_goals try replace h1 := not_le.mp h1
    all_goals try replace h2 := not_le.mp h2
    all_goals try replace h3 := not_le.mp h3
    all_goals try replace h4 := not_le.mp h4
    all_goals refine ⟨?_, ?_, ?_, ?_, ?_⟩ <;>
      constructor <;> intro hh <;> try obtain ⟨hh1, hh2⟩ := hh
    all_goals
      first
        | rfl
        | exact absurd hh (by decide)
        | linarith
        | exact ⟨by linarith, by linarith⟩

/-- C8 witness: a perfect metrics value is graded A. -/
theorem C8_witness : calculateQualityGrade perfectMetrics = "A (Excellent)" :=
  ((C8_quality_score_grade perfectMetrics).2.1).mpr
    (by norm_num [calculateOverallQualityScore, perfectMetrics, max_def])

/-! ## C7: language classifier and generic fallback -/

theorem lookup_mem_values {α β : Type _} [BEq α] (l : List (α × β)) (k : α) (v : β)
    (h : l.lookup k = some v) : v ∈ l.map Prod.snd := by
  induction l with
  | nil => simp [List.lookup] at h
  | cons p rest ih =>
    obtain ⟨a, b⟩ := p
    rw [List.map_cons]
    rcases hba : (k == a) with _ | _
    · have h2 : rest.lookup k = some v := by simpa [List.lookup, hba] using h
      exact List.mem_cons_of_mem _ (ih h2)
    · have h2 : b = v := by simpa [List.lookup, hba] using h
      exact h2 ▸ List.mem_cons_self _ _

theorem lookup_eq_none_of_not_mem {α β : Type _} [BEq α] [LawfulBEq α]
    (l : List (α × β)) (k : α) (h : k ∉ l.map Prod.fst) : l.lookup k = none := by
  induction l with
  | nil => rfl
  | cons p rest ih =>
    obtain ⟨a, b⟩ := p
    simp only [List.map_cons, List.mem_cons, not_or] at h
    have hba : (k == a) = false := beq_eq_false_iff_ne.mpr h.1
    simp [List.lookup, hba, ih h.2]

/-- C7: `detectLanguage` is total into the fixed tag set, defaulting to
`unknown` on every extension outside the 11-key table; the pipeline is
case-insensitive in the extension (the dispatch depends on the
lower-cased extension only); and a file whose (lower-cased) extension is
unrecognized is routed to the generic fallback, which yields exactly one
entity, of kind `module`. -/
theorem C7_language_classifier :
    (∀ ext : String, detectLanguage ext ∈ languageTags)
    ∧ (∀ ext : String, ext ∉ langMap.map Prod.fst → detectLanguage ext = "unknown")
    ∧ (∀ p q : String, jsToLower (extname p.data) = jsToLower (extname q.data) →
        detectLanguage (String.mk (jsToLower (extname p.data))) =
          detectLanguage (String.mk (jsToLower (extname q.data))))
    ∧ (∀ content p : String,
        detectLanguage (String.mk (jsToLower (extname p.data))) = "unknown" →
        extractEntities content p =
          [mkEntity "module" (some (basenameNoExt p.data)) p 1
            ("module ".data ++ basename p.data)]) := by
  refine ⟨?_, ?_, ?_, ?_⟩
  · intro ext
    unfold detectLanguage
    cases h : langMap.lookup ext with
    | none => decide
    | some l =>
      have hv := lookup_mem_values _ _ _ h
      fin_cases hv <;> decide
  · intro ext h
    unfold detectLanguage
    rw [lookup_eq_none_of_not_mem _ _ h]
  · intro p q h
    rw [h]
  · intro content p h
    simp only [extractEntities]
    rw [h]
    rfl

/-- C7 witness: a concrete unknown extension maps to `unknown` and
yields a single module entity. -/
theorem C7_witness :
    detectLanguage ".xyz" = "unknown" ∧
    extractEntities "foo" "dir/a.xyz" =
      [mkEntity "module" (some "a".data) "dir/a.xyz" 1 "module a.xyz".data] := by
  constructor
  · exact C7_language_classifier.2.1 ".xyz" (by decide)
  · exact (C7_language_classifier.2.2.2 "foo" "dir/a.xyz" (by decide)).trans (by decide)

/-! ## C10: `extractJSEntities` can emit an undefined name -/

/-- C10 (code bug): on the line `x = function () {` the middle
alternative of the function regex matches with both capture groups
absent, `funcMatch[1] || funcMatch[2]` is `undefined`, and the guard
`funcName && !line.includes('=') || line.includes('function')` is still
true via its right disjunct — so `extractJSEntities` (and hence
`extractEntities` on a `.js` path) pushes an entity whose `name` is
`undefined`, contradicting the declared `CodeEntity` interface
(`name: string`) and the claim. -/
theorem C10_undefined_name :
    extractEntities undefNameLine "a.js" =
      [mkEntity "function" none "a.js" 1 undefNameLine.data] ∧
    ∃ e ∈ extractEntities undefNameLine "a.js", e.name = none := by
  have h : extractEntities undefNameLine "a.js" =
      [mkEntity "function" none "a.js" 1 undefNameLine.data] := by decide
  exact ⟨h, _, by rw [h]; exact List.mem_singleton.mpr rfl, rfl⟩

/-! ## Clone invariants (helper lemmas for C2, C3, C6, C9) -/

theorem exactLen_le (xs ys : List (List Char)) : exactLen xs ys ≤ xs.length := by
  induction xs generalizing ys with
  | nil => cases ys <;> simp [exactLen]
  | cons a xs ih =>
    cases ys with
    | nil => simp [exactLen]
    | cons b ys =>
      simp only [exactLen, List.length_cons]
      split_ifs with h
      · have := ih ys; omega
      · omega

theorem nearScan_fst_le (xs ys : List (List Char)) : (nearScan xs ys).1 ≤ xs.length := by
  induction xs generalizing ys with
  | nil => cases ys <;> simp [nearScan]
  | cons a xs ih =>
    cases ys with
    | nil => simp [nearScan]
    | cons b ys =>
      simp only [nearScan, List.length_cons]
      split_ifs with h1 h2
      · have := ih ys; omega
      · have := ih ys; omega
      · simp

theorem nested_fold_inv (Q : CodeClone → Prop)
    (f : Nat → Nat → Option CodeClone)
    (better : Option CodeClone → Option CodeClone → Option CodeClone)
    (hb : ∀ best cand c, better best cand = some c → best = some c ∨ cand = some c)
    (hf : ∀ i j c, f i j = some c → Q c)
    (l1 l2 : List Nat) (c : CodeClone)
    (h : (l1.foldl (fun best i =>
      l2.foldl (fun best j => better best (f i j)) best) none) = some c) :
    Q c := by
  refine foldl_preserve (fun o : Option CodeClone => ∀ c2, o = some c2 → Q c2)
    _ l1 none (fun c2 hc2 => Option.noConfusion hc2) ?_ c h
  intro acc i hacc
  refine foldl_preserve (fun o : Option CodeClone => ∀ c2, o = some c2 → Q c2)
    _ l2 acc hacc ?_
  intro acc2 j hacc2 c2 hc2
  rcases hb acc2 (f i j) c2 hc2 with hL | hR
  · exact hacc2 c2 hL
  · exact hf i j c2 hR

theorem betterExact_cases (best cand : Option CodeClone) (c : CodeClone)
    (h : betterExact best cand = some c) : best = some c ∨ cand = some c := by
  rcases cand with _ | clone
  · exact Or.inl h
  · rcases best with _ | b
    · exact Or.inr h
    · simp only [betterExact] at h
      split_ifs at h
      · exact Or.inr h
      · exact Or.inl h

theorem betterNear_cases (best cand : Option CodeClone) (c : CodeClone)
    (h : betterNear best cand = some c) : best = some c ∨ cand = some c := by
  rcases cand with _ | clone
  · exact Or.inl h
  · rcases best with _ | b
    · exact Or.inr h
    · simp only [betterNear] at h
      split_ifs at h
      · exact Or.inr h
      · exact Or.inl h

/-- Every clone reported by `findExactClones` carries kind `exact`,
similarity 100, a window of at least the minimum 5 lines, and 1-based
in-bounds line numbers with `startLine + length = endLine + 1`. -/
theorem findExactClones_inv (content1 content2 f1 f2 : String) (c : CodeClone)
    (h : findExactClones content1 content2 f1 f2 = some c) :
    c.type = "exact" ∧ c.similarity = 100 ∧ 5 ≤ c.length ∧ 1 ≤ c.startLine ∧
    c.startLine ≤ c.endLine ∧ c.endLine ≤ (jsLines content1.data).length ∧
    c.startLine + c.length = c.endLine + 1 := by
  simp only [findExactClones] at h
  refine nested_fold_inv (fun cl => cl.type = "exact" ∧ cl.similarity = 100 ∧
    5 ≤ cl.length ∧ 1 ≤ cl.startLine ∧ cl.startLine ≤ cl.endLine ∧
    cl.endLine ≤ (jsLines content1.data).length ∧
    cl.startLine + cl.length = cl.endLine + 1) _ _ betterExact_cases ?_ _ _ c h
  intro i j c2 hc
  simp only [exactCandidate] at hc
  by_cases h5 : 5 ≤ exactLen ((jsLines content1.data).drop i) ((jsLines content2.data).drop j)
  · rw [if_pos h5] at hc
    have hm := exactLen_le ((jsLines content1.data).drop i) ((jsLines content2.data).drop j)
    rw [List.length_drop] at hm
    obtain rfl := Option.some.inj hc
    refine ⟨rfl, rfl, h5, ?_, ?_, ?_, ?_⟩
    · show 1 ≤ i + 1
      omega
    · show i + 1 ≤ i + exactLen ((jsLines content1.data).drop i) ((jsLines content2.data).drop j)
      omega
    · show i + exactLen ((jsLines content1.data).drop i) ((jsLines content2.data).drop j) ≤
        (jsLines content1.data).length
      omega
    · show i + 1 + exactLen ((jsLines content1.data).drop i) ((jsLines content2.data).drop j) =
        i + exactLen ((jsLines content1.data).drop i) ((jsLines content2.data).drop j) + 1
      omega
  · rw [if_neg h5] at hc
    exact Option.noConfusion hc

/-- Every clone reported by `findNearClones` carries kind `near`,
similarity in `[80, 100)`, a window of at least the minimum 3 lines, and
1-based in-bounds line numbers with `startLine + length = endLine + 1`. -/
theorem findNearClones_inv (content1 content2 f1 f2 : String) (c : CodeClone)
    (h : findNearClones content1 content2 f1 f2 = some c) :
    c.type = "near" ∧ 80 ≤ c.similarity ∧ c.similarity < 100 ∧ 3 ≤ c.length ∧
    1 ≤ c.startLine ∧ c.startLine ≤ c.endLine ∧
    c.endLine ≤ (jsLines content1.data).length ∧
    c.startLine + c.length = c.endLine + 1 := by
  simp only [findNearClones] at h
  refine nested_fold_inv (fun cl => cl.type = "near" ∧ 80 ≤ cl.similarity ∧
    cl.similarity < 100 ∧ 3 ≤ cl.length ∧ 1 ≤ cl.startLine ∧
    cl.startLine ≤ cl.endLine ∧ cl.endLine ≤ (jsLines content1.data).length ∧
    cl.startLine + cl.length = cl.endLine + 1) _ _ betterNear_cases ?_ _ _ c h
  intro i j c2 hc
  simp only [nearCandidate] at hc
  by_cases h3 : 3 ≤ (nearScan ((jsLines content1.data).drop i) ((jsLines content2.data).drop j)).1
  rotate_left
  · rw [if_neg h3] at hc
    exact Option.noConfusion hc
  rw [if_pos h3] at hc
  by_cases hg : 80 ≤ (nearScan ((jsLines content1.data).drop i) ((jsLines content2.data).drop j)).2 /
      ((nearScan ((jsLines content1.data).drop i) ((jsLines content2.data).drop j)).1 : ℚ) ∧
      (nearScan ((jsLines content1.data).drop i) ((jsLines content2.data).drop j)).2 /
      ((nearScan ((jsLines content1.data).drop i) ((jsLines content2.data).drop j)).1 : ℚ) < 100
  rotate_left
  · rw [if_neg hg] at hc
    exact Option.noConfusion hc
  · rw [if_pos hg] at hc
    have hm := nearScan_fst_le ((jsLines content1.data).drop i) ((jsLines content2.data).drop j)
    rw [List.length_drop] at hm
    obtain rfl := Option.some.inj hc
    refine ⟨rfl, hg.1, hg.2, h3, ?_, ?_, ?_, ?_⟩
    · show 1 ≤ i + 1
      omega
    · show i + 1 ≤ i + (nearScan ((jsLines content1.data).drop i) ((jsLines content2.data).drop j)).1
      omega
    · show i + (nearScan ((jsLines content1.data).drop i) ((jsLines content2.data).drop j)).1 ≤
        (jsLines content1.data).length
      omega
    · show i + 1 + (nearScan ((jsLines content1.data).drop i) ((jsLines content2.data).drop j)).1 =
        i + (nearScan ((jsLines content1.data).drop i) ((jsLines content2.data).drop j)).1 + 1
      omega

theorem fnEndScan_bounds (i : Nat) (rem : List (List Char)) :
    ∀ (j : Nat) (bc : Int), i ≤ j →
      fnEndScan i rem j bc = i ∨
        (j ≤ fnEndScan i rem j bc ∧ fnEndScan i rem j bc < j + rem.length) := by
  induction rem with
  | nil => intro j bc _; exact Or.inl rfl
  | cons l rest ih =>
    intro j bc hij
    simp only [fnEndScan, List.length_cons]
    split_ifs with hcond
    · right; omega
    · rcases ih (j + 1) (bc + braceDelta l) (le_trans hij (Nat.le_succ j)) with h1 | h2
      · exact Or.inl h1
      · right; omega

theorem findFnEnd_bounds (ls : List (List Char)) (i : Nat) (hi : i < ls.length) :
    i ≤ findFnEnd ls i ∧ findFnEnd ls i < ls.length := by
  unfold findFnEnd
  rcases fnEndScan_bounds i (ls.drop i) i 0 (le_refl i) with h | h
  · rw [h]; exact ⟨le_refl i, hi⟩
  · rw [List.length_drop] at h
    omega

/-- Every span extracted by `extractFunctionPatterns` has 1-based
in-bounds line numbers; its `lines` field is `endLine − startLine`
(not the inclusive line count). -/
theorem funcPattern_bounds (content : List Char) (p : FunctionPattern)
    (hp : p ∈ extractFunctionPatterns content) :
    1 ≤ p.startLine ∧ p.startLine ≤ p.endLine ∧
    p.endLine ≤ (jsLines content).length ∧
    p.startLine + p.lines = p.endLine := by
  simp only [extractFunctionPatterns] at hp
  rw [List.mem_filterMap] at hp
  obtain ⟨i, hi, hfi⟩ := hp
  rw [List.mem_range] at hi
  split_ifs at hfi with hmatch
  · obtain rfl := Option.some.inj hfi
    have he := findFnEnd_bounds (jsLines content) i hi
    refine ⟨?_, ?_, ?_, ?_⟩
    · show 1 ≤ i + 1
      omega
    · show i + 1 ≤ findFnEnd (jsLines content) i + 1
      omega
    · show findFnEnd (jsLines content) i + 1 ≤ (jsLines content).length
      omega
    · show i + 1 + (findFnEnd (jsLines content) i - i) = findFnEnd (jsLines content) i + 1
      omega

/-- Every clone reported by `findFunctionalClones` carries kind
`functional` and 1-based in-bounds line numbers with
`startLine + length = endLine` — one less than the inclusive count. -/
theorem findFunctionalClones_inv (content1 content2 f1 f2 : String) (c : CodeClone)
    (h : findFunctionalClones content1 content2 f1 f2 = some c) :
    c.type = "functional" ∧ 1 ≤ c.startLine ∧ c.startLine ≤ c.endLine ∧
    c.endLine ≤ (jsLines content1.data).length ∧
    c.startLine + c.length = c.endLine := by
  simp only [findFunctionalClones] at h
  cases hf : firstFunctionalPair (extractFunctionPatterns content1.data)
      (extractFunctionPatterns content2.data) with
  | none => rw [hf] at h; exact Option.noConfusion h
  | some t =>
    rw [hf] at h
    obtain ⟨p1, s⟩ := t
    obtain rfl := Option.some.inj h
    obtain ⟨q1, hq1, hq⟩ := List.exists_of_findSome?_eq_some hf
    obtain ⟨q2, hq2, hq2e⟩ := List.exists_of_findSome?_eq_some hq
    rcases hsim : calculateFunctionSimilarity q1 q2 with _ | s2 <;>
      simp only [hsim] at hq2e
    · exact Option.noConfusion hq2e
    · split_ifs at hq2e with h75
      · have hpair : (q1, s2) = (p1, s) := Option.some.inj hq2e
        have hq1p : q1 = p1 := congrArg Prod.fst hpair
        subst hq1p
        have hb := funcPattern_bounds content1.data q1 hq1
        exact ⟨rfl, hb.1, hb.2.1, hb.2.2.1, hb.2.2.2⟩

/-! ## Concrete clone evaluations (helper lemmas) -/

theorem nearLineSim75 :
    calculateLineSimilarity "alpha beta gamma one".data "alpha beta gamma two".data = 75 := by
  simp only [calculateLineSimilarity]
  rw [if_neg (by decide : ¬ ("alpha beta gamma one".data = "alpha beta gamma two".data))]
  rw [show (((jsSplitWs "alpha beta gamma one".data).filter (fun w => 2 < w.length)).filter
      (fun w => ((jsSplitWs "alpha beta gamma two".data).filter
        (fun w => 2 < w.length)).contains w)).length = 3 from by decide]
  rw [show max ((jsSplitWs "alpha beta gamma one".data).filter (fun w => 2 < w.length)).length
      ((jsSplitWs "alpha beta gamma two".data).filter (fun w => 2 < w.length)).length = 4
      from by decide]
  norm_num

theorem nearScanEval :
    nearScan (jsLines nearContentA.data) (jsLines nearContentB.data) = (3, 275) := by
  rw [show jsLines nearContentA.data =
      ["alpha beta gamma one".data, "alpha beta gamma one".data,
        "alpha beta gamma one".data] from by decide]
  rw [show jsLines nearContentB.data =
      ["alpha beta gamma one".data, "alpha beta gamma one".data,
        "alpha beta gamma two".data] from by decide]
  simp only [nearScan,
    show jsTrim "alpha beta gamma one".data = "alpha beta gamma one".data from by decide,
    show jsTrim "alpha beta gamma two".data = "alpha beta gamma two".data from by decide,
    eq_self_iff_true, if_true,
    eq_false (by decide : ¬ (("alpha beta gamma one".data : List Char) =
      "alpha beta gamma two".data)),
    if_false, Prod.mk.injEq]
  have hlt : (70:ℚ) < calculateLineSimilarity "alpha beta gamma one".data
      "alpha beta gamma two".data := by
    rw [nearLineSim75]; norm_num
  rw [if_pos hlt, nearLineSim75]
  norm_num

theorem findNearClones_nearAB :
    (findNearClones nearContentA nearContentB "f1" "f2").isSome = true := by
  simp only [findNearClones]
  rw [show (jsLines nearContentA.data).length = 3 from by decide,
      show (jsLines nearContentB.data).length = 3 from by decide]
  rw [show List.range (3 + 1 - 3) = [0] from by decide]
  simp only [List.foldl_cons, List.foldl_nil]
  simp only [nearCandidate, List.drop_zero]
  simp only [nearScanEval]
  norm_num [betterNear]

theorem exactLen_replicate (l : List Char) : ∀ a b : Nat,
    exactLen (List.replicate a l) (List.replicate b l) = min a b := by
  intro a
  induction a with
  | zero => intro b; cases b <;> simp [exactLen]
  | succ a ih =>
    intro b
    cases b with
    | zero => simp [exactLen]
    | succ b =>
      rw [List.replicate_succ, List.replicate_succ]
      simp only [exactLen, if_true, eq_self_iff_true, ih]
      omega

theorem nearScan_replicate (l : List Char) : ∀ a b : Nat,
    nearScan (List.replicate a l) (List.replicate b l) =
      (min a b, 100 * ((min a b : ℕ) : ℚ)) := by
  intro a
  induction a with
  | zero => intro b; cases b <;> simp [nearScan]
  | succ a ih =>
    intro b
    cases b with
    | zero => simp [nearScan]
    | succ b =>
      rw [List.replicate_succ, List.replicate_succ]
      simp only [nearScan, if_true, eq_self_iff_true, ih]
      have hmin : (a + 1) ⊓ (b + 1) = a ⊓ b + 1 := by omega
      rw [hmin]
      simp only [Prod.mk.injEq]
      constructor
      · trivial
      · push_cast
        ring

theorem foldl_id {α β : Type _} (l : List α) (b : β) : l.foldl (fun x _ => x) b = b := by
  induction l generalizing b with
  | nil => rfl
  | cons x xs ih => exact ih b

/-- On two files made of the same repeated line every window is an exact
match, so the average near-similarity is exactly 100 and the `< 100`
guard rejects every candidate. -/
theorem nearCandidate_replicate (l : List Char) (n1 n2 : Nat) (f1 f2 : String) (i j : Nat) :
    nearCandidate (List.replicate n1 l) (List.replicate n2 l) f1 f2 i j = none := by
  simp only [nearCandidate, List.drop_replicate, nearScan_replicate]
  by_cases h3 : 3 ≤ min (n1 - i) (n2 - j)
  rotate_left
  · rw [if_neg h3]
  · rw [if_pos h3]
    rw [if_neg]
    intro hg
    have hm : (0:ℚ) < ((min (n1 - i) (n2 - j) : ℕ) : ℚ) := by
      have : 0 < min (n1 - i) (n2 - j) := by omega
      exact_mod_cast this
    have havg : 100 * ((min (n1 - i) (n2 - j) : ℕ) : ℚ) /
        ((min (n1 - i) (n2 - j) : ℕ) : ℚ) = 100 := by
      rw [mul_div_assoc, div_self (ne_of_gt hm), mul_one]
    rw [havg] at hg
    exact absurd hg.2 (lt_irrefl _)

theorem findNearClones_allreplicate (c1 c2 f1 f2 : String) (l : List Char) (n1 n2 : Nat)
    (h1 : jsLines c1.data = List.replicate n1 l)
    (h2 : jsLines c2.data = List.replicate n2 l) :
    findNearClones c1 c2 f1 f2 = none := by
  simp only [findNearClones, h1, h2, nearCandidate_replicate]
  simp only [betterNear, foldl_id]

theorem nearClonesFour : nearClonesFor fourFileFs fourFilePaths = [] := by
  have hp : ∀ s t : String, findNearClones tenLinesC tenLinesC s t = none := fun s t =>
    findNearClones_allreplicate tenLinesC tenLinesC s t "aaaa".data 10 10
      (by decide) (by decide)
  rw [nearClonesFor, show pairsOf fourFilePaths =
    [("f1","f2"),("f1","f3"),("f1","f4"),("f2","f3"),("f2","f4"),("f3","f4")] from by decide]
  simp only [List.filterMap_cons, List.filterMap_nil]
  rw [show clonePair findNearClones fourFileFs ("f1","f2") =
    findNearClones tenLinesC tenLinesC "f1" "f2" from rfl]
  rw [show clonePair findNearClones fourFileFs ("f1","f3") =
    findNearClones tenLinesC tenLinesC "f1" "f3" from rfl]
  rw [show clonePair findNearClones fourFileFs ("f1","f4") =
    findNearClones tenLinesC tenLinesC "f1" "f4" from rfl]
  rw [show clonePair findNearClones fourFileFs ("f2","f3") =
    findNearClones tenLinesC tenLinesC "f2" "f3" from rfl]
  rw [show clonePair findNearClones fourFileFs ("f2","f4") =
    findNearClones tenLinesC tenLinesC "f2" "f4" from rfl]
  rw [show clonePair findNearClones fourFileFs ("f3","f4") =
    findNearClones tenLinesC tenLinesC "f3" "f4" from rfl]
  simp only [hp]

/-! ## C6: similarity ranges -/

/-- C6: every exact clone has similarity exactly 100, every near clone a
similarity in `[80, 100)`, for all pairs of input texts. -/
theorem C6_similarity_ranges (content1 content2 f1 f2 : String) :
    (∀ c : CodeClone, findExactClones content1 content2 f1 f2 = some c →
      c.similarity = 100)
    ∧ (∀ c : CodeClone, findNearClones content1 content2 f1 f2 = some c →
      80 ≤ c.similarity ∧ c.similarity < 100) := by
  constructor
  · intro c h
    exact (findExactClones_inv content1 content2 f1 f2 c h).2.1
  · intro c h
    obtain ⟨-, h80, h100, -⟩ := findNearClones_inv content1 content2 f1 f2 c h
    exact ⟨h80, h100⟩

/-- C6 witness: a concrete exact clone of similarity 100 and a concrete
near clone with similarity in `[80, 100)`. -/
theorem C6_witness :
    ((findExactClones tenLinesC tenLinesC "f1" "f2").getD defaultClone).similarity = 100 ∧
    (80 ≤ ((findNearClones nearContentA nearContentB "f1" "f2").getD defaultClone).similarity ∧
      ((findNearClones nearContentA nearContentB "f1" "f2").getD defaultClone).similarity
        < 100) := by
  constructor
  · exact (C6_similarity_ranges tenLinesC tenLinesC "f1" "f2").1 _ (by decide)
  · obtain ⟨r, hr⟩ := Option.isSome_iff_exists.mp findNearClones_nearAB
    have hb := (C6_similarity_ranges nearContentA nearContentB "f1" "f2").2 r hr
    rw [hr, Option.getD_some]
    exact hb

/-! ## C9: clone line-number bounds -/

/-- C9 counterexample: on a two-line function compared against itself,
the functional clone has `startLine 1`, `endLine 2` but `length 1`, so
`length = endLine − startLine + 1` fails (functional-clone lengths are
`endLine − startLine`). -/
theorem C9_counterexample :
    ((findFunctionalClones funcContent funcContent "a" "b").map
      (fun c => (c.startLine, c.endLine, c.length))) = some (1, 2, 1) ∧
    ¬ ((1 : Nat) = 2 - 1 + 1) := by
  have hp : extractFunctionPatterns funcContent.data =
      [{ startLine := 1, endLine := 2, lines := 1, content := funcContent.data }] := by
    decide
  have hcs : calculateFunctionSimilarity
      { startLine := 1, endLine := 2, lines := 1, content := funcContent.data }
      { startLine := 1, endLine := 2, lines := 1, content := funcContent.data } =
      some 100 := by
    simp only [calculateFunctionSimilarity, calculateLineSimilarity]
    norm_num
  have hffp : firstFunctionalPair (extractFunctionPatterns funcContent.data)
      (extractFunctionPatterns funcContent.data) =
      some ({ startLine := 1, endLine := 2, lines := 1, content := funcContent.data }, 100) := by
    rw [firstFunctionalPair, hp]
    simp only [List.findSome?, hcs]
    rw [if_pos (by norm_num : (75 : ℚ) ≤ 100)]
  have hfc : findFunctionalClones funcContent funcContent "a" "b" =
      some { type := "functional", primaryFile := "a", cloneFiles := ["b"],
             startLine := 1, endLine := 2, length := 1, similarity := 100,
             cloneContent := funcContent.data,
             risk := if 90 < (100 : ℚ) then "medium" else "low",
             refactoringOpportunity := "Consider strategy pattern or shared interface" } := by
    simp only [findFunctionalClones, hffp]
  constructor
  · rw [hfc]
    rfl
  · omega

/-- C9 (amended: exact and near clones satisfy
`length = endLine − startLine + 1`, functional clones
`length = endLine − startLine`): all three finders report 1-based line
numbers within the primary file. -/
theorem C9_clone_line_bounds (content1 content2 f1 f2 : String) :
    (∀ c : CodeClone, findExactClones content1 content2 f1 f2 = some c →
      1 ≤ c.startLine ∧ c.startLine ≤ c.endLine ∧
      c.endLine ≤ (jsLines content1.data).length ∧
      c.length = c.endLine - c.startLine + 1)
    ∧ (∀ c : CodeClone, findNearClones content1 content2 f1 f2 = some c →
      1 ≤ c.startLine ∧ c.startLine ≤ c.endLine ∧
      c.endLine ≤ (jsLines content1.data).length ∧
      c.length = c.endLine - c.startLine + 1)
    ∧ (∀ c : CodeClone, findFunctionalClones content1 content2 f1 f2 = some c →
      1 ≤ c.startLine ∧ c.startLine ≤ c.endLine ∧
      c.endLine ≤ (jsLines content1.data).length ∧
      c.length = c.endLine - c.startLine) := by
  refine ⟨?_, ?_, ?_⟩
  · intro c h
    obtain ⟨-, -, -, h1, h2, h3, h4⟩ := findExactClones_inv content1 content2 f1 f2 c h
    exact ⟨h1, h2, h3, by omega⟩
  · intro c h
    obtain ⟨-, -, -, -, h1, h2, h3, h4⟩ := findNearClones_inv content1 content2 f1 f2 c h
    exact ⟨h1, h2, h3, by omega⟩
  · intro c h
    obtain ⟨-, h1, h2, h3, h4⟩ := findFunctionalClones_inv content1 content2 f1 f2 c h
    exact ⟨h1, h2, h3, by omega⟩

/-- C9 witness: the bounds at the concrete ten-line exact clone. -/
theorem C9_witness :
    1 ≤ ((findExactClones tenLinesC tenLinesC "f1" "f2").getD defaultClone).startLine ∧
    ((findExactClones tenLinesC tenLinesC "f1" "f2").getD defaultClone).startLine ≤
      ((findExactClones tenLinesC tenLinesC "f1" "f2").getD defaultClone).endLine ∧
    ((findExactClones tenLinesC tenLinesC "f1" "f2").getD defaultClone).endLine ≤
      (jsLines tenLinesC.data).length ∧
    ((findExactClones tenLinesC tenLinesC "f1" "f2").getD defaultClone).length =
      ((findExactClones tenLinesC tenLinesC "f1" "f2").getD defaultClone).endLine -
        ((findExactClones tenLinesC tenLinesC "f1" "f2").getD defaultClone).startLine + 1 :=
  (C9_clone_line_bounds tenLinesC tenLinesC "f1" "f2").1 _ (by decide)

/-! ## C2: the end-to-end ten-line clone scenario -/

/-- C2 counterexample: the exact clone of two identical ten-line files
has length 10 and risk `"low"` — the `> 10` threshold is strict, so the
claim's risk `"medium"` is wrong at this boundary. -/
theorem C2_counterexample :
    ((findExactClones tenLinesC tenLinesC "f1" "f2").getD defaultClone).length = 10 ∧
    ((findExactClones tenLinesC tenLinesC "f1" "f2").getD defaultClone).risk = "low" ∧
    ((findExactClones tenLinesC tenLinesC "f1" "f2").getD defaultClone).risk ≠ "medium" := by
  refine ⟨by decide, by decide, by decide⟩

/-- C2 (amended: the risk of the length-10 clone is `"low"`, since the
thresholds are strict: `length > 20 → high`, `> 10 → medium`, else low):
on two files each consisting of the same line repeated 10 times,
`findExactClones` reports exactly one clone — the whole file — with
`startLine 1`, `endLine 10`, `length 10`, similarity 100 and risk
`"low"`. -/
theorem C2_ten_line_clone (content1 content2 f1 f2 : String) (l : List Char)
    (h1 : jsLines content1.data = List.replicate 10 l)
    (h2 : jsLines content2.data = List.replicate 10 l) :
    findExactClones content1 content2 f1 f2 = some
      { type := "exact", primaryFile := f1, cloneFiles := [f2], startLine := 1,
        endLine := 10, length := 10, similarity := 100,
        cloneContent := joinLines (List.replicate 10 l), risk := "low",
        refactoringOpportunity := "Extract to shared utility function" } := by
  simp only [findExactClones, h1, h2, List.length_replicate]
  rw [show List.range (10 + 1 - 5) = [0, 1, 2, 3, 4, 5] from by decide]
  simp only [List.foldl_cons, List.foldl_nil]
  simp only [exactCandidate, List.drop_replicate, exactLen_replicate, List.take_replicate]
  norm_num [betterExact]

/-- C2 witness: the scenario at the concrete line `aaaa`. -/
theorem C2_witness :
    findExactClones tenLinesC tenLinesC "f1" "f2" = some
      { type := "exact", primaryFile := "f1", cloneFiles := ["f2"], startLine := 1,
        endLine := 10, length := 10, similarity := 100,
        cloneContent := joinLines (List.replicate 10 "aaaa".data), risk := "low",
        refactoringOpportunity := "Extract to shared utility function" } :=
  C2_ten_line_clone tenLinesC tenLinesC "f1" "f2" "aaaa".data (by decide) (by decide)

/-! ## C3: duplication percentages -/

/-- C3 counterexample: on a corpus of four identical ten-line files the
driver produces six exact clones of ten lines each (and no near or
functional clones), so `calculateCloneMetrics` reports a corpus-wide
duplication percentage of `60/40 × 100 = 150 > 100`. -/
theorem C3_counterexample :
    ¬ ((calculateCloneMetrics (exactClonesFor fourFileFs fourFilePaths)
        (nearClonesFor fourFileFs fourFilePaths)
        (functionalClonesFor fourFileFs fourFilePaths)
        fourFilePaths fourFileFs).duplicationPercentage ≤ 100) := by
  rw [nearClonesFour]
  rw [show functionalClonesFor fourFileFs fourFilePaths = [] from by decide]
  have hdup : totalDuplicatedLinesOf (exactClonesFor fourFileFs fourFilePaths) [] [] = 60 := by
    decide
  have hlines : totalLinesOf fourFilePaths fourFileFs = 40 := by decide
  simp only [calculateCloneMetrics]
  rw [hdup, hlines]
  rw [if_pos (by norm_num : 0 < 40)]
  norm_num

/-- C3 (amended: the per-file duplication percentage is always ≤ 100;
the corpus-wide clone-metrics percentage equals
`totalDuplicatedLines / totalLines × 100` and is ≤ 100 whenever the
total duplicated line count does not exceed the corpus line count, but
can exceed 100 otherwise, because the per-pair clone lengths are summed
over all file pairs). -/
theorem C3_duplication_bounds :
    (∀ lines : List (List Char), calculateDuplication lines ≤ 100)
    ∧ (∀ (e n f : List CodeClone) (ps : List String) (fs : FileSystem),
        totalDuplicatedLinesOf e n f ≤ totalLinesOf ps fs →
        (calculateCloneMetrics e n f ps fs).duplicationPercentage ≤ 100) := by
  constructor
  · intro lines
    simp only [calculateDuplication]
    split_ifs with hl
    · have hd : dupCount ((lines.map jsTrim).filter (fun l => 10 < l.length)) ≤
          lines.length := by
        calc dupCount ((lines.map jsTrim).filter (fun l => 10 < l.length)) ≤
            ((lines.map jsTrim).filter (fun l => 10 < l.length)).length := dupCount_le _
          _ ≤ (lines.map jsTrim).length := List.length_filter_le _ _
          _ = lines.length := by simp
      have hd2 : (dupCount ((lines.map jsTrim).filter (fun l => 10 < l.length)) : ℚ) ≤
          (lines.length : ℚ) := by exact_mod_cast hd
      have hl2 : (0:ℚ) < (lines.length : ℚ) := by exact_mod_cast hl
      rw [div_mul_eq_mul_div, div_le_iff₀ hl2]
      nlinarith
    · norm_num
  · intro e n f ps fs h
    simp only [calculateCloneMetrics]
    split_ifs with hl
    · have h2 : (totalDuplicatedLinesOf e n f : ℚ) ≤ (totalLinesOf ps fs : ℚ) := by
        exact_mod_cast h
      have hl2 : (0:ℚ) < (totalLinesOf ps fs : ℚ) := by exact_mod_cast hl
      rw [div_mul_eq_mul_div, div_le_iff₀ hl2]
      nlinarith
    · norm_num

/-- C3 witness: on a two-file corpus of the ten-line file the corpus
percentage (one clone, 10 of 20 lines) is within the bound. -/
theorem C3_witness :
    (calculateCloneMetrics (exactClonesFor twoFileFs twoFilePaths) [] []
      twoFilePaths twoFileFs).duplicationPercentage ≤ 100 :=
  C3_duplication_bounds.2 (exactClonesFor twoFileFs twoFilePaths) [] []
    twoFilePaths twoFileFs (by decide)

/-! ## C1: the security scanner is per-line independent

The `g`-flagged rule regexes are shared across the line loop, so
`regex.test(line)` is in principle stateful through `lastIndex`.  The
source neutralises this: a failed `test` resets `lastIndex` to 0, and a
successful `test` is immediately followed by `line.match(regex)` in the
push expression, which (being a match of a global regex) also leaves
`lastIndex = 0`.  Hence every `test` actually runs from position 0 and
the scan coincides with the per-line-independent reading. -/

theorem ruleStep_snd_zero (fp : String) (i : Nat) (line : List Char)
    (nm : String) (r : RE) (ci : Bool) (li : Nat) :
    (ruleStep fp i line nm r ci li).2 = 0 := by
  have hst : ∀ st : Nat, jsTestG ci r line li = (false, st) → st = 0 := by
    intro st hT
    unfold jsTestG at hT
    by_cases h : line.length < li
    · rw [if_pos h] at hT
      injection hT with h1 h2
      exact h2.symm
    · rw [if_neg h] at hT
      rcases hF : findMatchFrom ci r line li with _ | t
      · rw [hF] at hT
        injection hT with h1 h2
        exact h2.symm
      · obtain ⟨a, e, caps⟩ := t
        rw [hF] at hT
        injection hT with h1 h2
        exact absurd h1 (by simp)
  unfold ruleStep
  rcases hT : jsTestG ci r line li with ⟨b, st⟩
  cases b
  · exact hst st hT
  · rfl

theorem scanLine_snd (fp : String) (i : Nat) (line : List Char) :
    ∀ (rules : List (String × RE × Bool)) (sts : List Nat),
      (scanLine fp i line rules sts).2 = List.replicate rules.length 0 := by
  intro rules
  induction rules with
  | nil => intro sts; rfl
  | cons t rs ih =>
    intro sts
    obtain ⟨nm, r, ci⟩ := t
    show (ruleStep fp i line nm r ci (sts.headD 0)).2 ::
        (scanLine fp i line rs sts.tail).2 = _
    rw [ruleStep_snd_zero, ih sts.tail, List.length_cons, List.replicate_succ]

theorem scanLine_fst_zero (fp : String) (i : Nat) (line : List Char) :
    ∀ (rules : List (String × RE × Bool)) (n : Nat),
      (scanLine fp i line rules (List.replicate n 0)).1 =
        rules.filterMap (fun t => (ruleStep fp i line t.1 t.2.1 t.2.2 0).1) := by
  intro rules
  induction rules with
  | nil => intro n; rfl
  | cons t rs ih =>
    intro n
    obtain ⟨nm, r, ci⟩ := t
    have hh : (List.replicate n (0 : Nat)).headD 0 = 0 := by cases n <;> rfl
    have ht : (List.replicate n (0 : Nat)).tail = List.replicate (n - 1) 0 := by
      cases n <;> rfl
    show (match (ruleStep fp i line nm r ci
        ((List.replicate n 0).headD 0)).1 with
      | some v => v :: (scanLine fp i line rs (List.replicate n 0).tail).1
      | none => (scanLine fp i line rs (List.replicate n 0).tail).1) = _
    rw [hh, ht, ih (n - 1), List.filterMap_cons]
    cases hv : (ruleStep fp i line nm r ci 0).1 with
    | none => simp [hv]
    | some v => simp [hv]

theorem secScan_eq (fp : String) :
    ∀ (ls : List (List Char)) (i : Nat),
      secScan fp ls i (List.replicate securityPatterns.length 0) =
        secScanIndependent fp ls i := by
  intro ls
  induction ls with
  | nil => intro i; rfl
  | cons l rest ih =>
    intro i
    show (scanLine fp i l securityPatterns (List.replicate securityPatterns.length 0)).1 ++
        secScan fp rest (i + 1)
          (scanLine fp i l securityPatterns (List.replicate securityPatterns.length 0)).2 = _
    rw [scanLine_snd, scanLine_fst_zero, ih (i + 1)]
    rfl

theorem ruleStep_some_facts (fp : String) (i : Nat) (line : List Char)
    (nm : String) (r : RE) (ci : Bool) (li : Nat) (v : SecurityVulnerability)
    (h : (ruleStep fp i line nm r ci li).1 = some v) :
    v.line = i + 1 ∧ v.type = nm := by
  unfold ruleStep at h
  rcases hT : jsTestG ci r line li with ⟨b, st⟩
  rw [hT] at h
  cases b
  · exact Option.noConfusion h
  · obtain rfl := Option.some.inj h
    exact ⟨rfl, rfl⟩

theorem ruleStep_isSome (fp : String) (i : Nat) (line : List Char)
    (nm : String) (r : RE) (ci : Bool) :
    (ruleStep fp i line nm r ci 0).1.isSome = reMatches ci r line := by
  unfold ruleStep jsTestG reMatches
  rw [if_neg (by omega : ¬ line.length < 0)]
  rcases hF : findMatchFrom ci r line 0 with _ | t
  · simp [hF]
  · obtain ⟨a, e, caps⟩ := t
    simp [hF]

theorem lineFindings_line (fp : String) (i : Nat) (l : List Char) :
    ∀ v ∈ lineFindings fp i l, v.line = i + 1 := by
  intro v hv
  simp only [lineFindings] at hv
  rw [List.mem_filterMap] at hv
  obtain ⟨t, ht, hsome⟩ := hv
  exact (ruleStep_some_facts fp i l t.1 t.2.1 t.2.2 0 v hsome).1

theorem filterMap_rules_count (fp : String) (i : Nat) (l : List Char) :
    ∀ (rules : List (String × RE × Bool)), (rules.map (fun t => t.1)).Nodup →
      ∀ (nm : String) (r : RE) (ci : Bool), (nm, r, ci) ∈ rules →
      (rules.filterMap (fun t => (ruleStep fp i l t.1 t.2.1 t.2.2 0).1)).countP
          (fun v => decide (v.type = nm)) =
        if (ruleStep fp i l nm r ci 0).1.isSome then 1 else 0 := by
  intro rules
  induction rules with
  | nil =>
    intro _ nm r ci h
    exact absurd h (List.not_mem_nil _)
  | cons t rs ih =>
    intro hnd nm r ci hmem
    obtain ⟨nm0, r0, ci0⟩ := t
    rw [List.map_cons, List.nodup_cons] at hnd
    rw [List.filterMap_cons]
    rcases List.mem_cons.mp hmem with heq | hmem2
    · obtain ⟨rfl, rfl, rfl⟩ : nm = nm0 ∧ r = r0 ∧ ci = ci0 := by
        simpa [Prod.ext_iff] using heq
      have hrest : (rs.filterMap
          (fun t => (ruleStep fp i l t.1 t.2.1 t.2.2 0).1)).countP
          (fun v => decide (v.type = nm)) = 0 := by
        rw [List.countP_eq_zero]
        intro v hv
        rw [List.mem_filterMap] at hv
        obtain ⟨u, hu, husome⟩ := hv
        have hty := (ruleStep_some_facts fp i l u.1 u.2.1 u.2.2 0 v husome).2
        simp only [decide_eq_true_eq, hty]
        intro hc
        exact hnd.1 (hc ▸ List.mem_map_of_mem (fun t => t.1) hu)
      cases hv : (ruleStep fp i l nm r ci 0).1 with
      | none => simp [hv, hrest]
      | some v =>
        have hty := (ruleStep_some_facts fp i l nm r ci 0 v hv).2
        simp [hv, List.countP_cons, hrest, hty]
    · have hne : nm0 ≠ nm := by
        intro hc
        subst hc
        exact hnd.1 (List.mem_map_of_mem (fun t => t.1) hmem2)
      have htail := ih hnd.2 nm r ci hmem2
      cases hv : (ruleStep fp i l nm0 r0 ci0 0).1 with
      | none => simpa [hv] using htail
      | some v =>
        have hty := (ruleStep_some_facts fp i l nm0 r0 ci0 0 v hv).2
        simpa [hv, List.countP_cons, hty, hne] using htail

theorem secScanIndependent_count (fp : String) (nm : String) (r : RE) (ci : Bool)
    (hmem : (nm, r, ci) ∈ securityPatterns) :
    ∀ (ls : List (List Char)) (j i : Nat),
      (secScanIndependent fp ls j).countP
          (fun v => decide (v.line = i + 1 ∧ v.type = nm)) =
        if j ≤ i ∧ i - j < ls.length ∧ reMatches ci r (ls.getD (i - j) []) = true
        then 1 else 0 := by
  intro ls
  induction ls with
  | nil =>
    intro j i
    rw [if_neg]
    · rfl
    · rintro ⟨-, h2, -⟩
      exact absurd h2 (by simp)
  | cons l rest ih =>
    intro j i
    show ((lineFindings fp j l ++ secScanIndependent fp rest (j + 1)).countP
      (fun v => decide (v.line = i + 1 ∧ v.type = nm))) = _
    rw [List.countP_append]
    by_cases hji : j = i
    · subst hji
      have h1 : (lineFindings fp j l).countP
          (fun v => decide (v.line = j + 1 ∧ v.type = nm)) =
          (lineFindings fp j l).countP (fun v => decide (v.type = nm)) := by
        apply List.countP_congr
        intro v hv
        have := lineFindings_line fp j l v hv
        simp [this]
      have h2 : (secScanIndependent fp rest (j + 1)).countP
          (fun v => decide (v.line = j + 1 ∧ v.type = nm)) = 0 := by
        rw [ih (j + 1) j, if_neg]
        rintro ⟨hc, -⟩
        omega
      rw [h1, h2]
      show (securityPatterns.filterMap
        (fun t => (ruleStep fp j l t.1 t.2.1 t.2.2 0).1)).countP
          (fun v => decide (v.type = nm)) + 0 = _
      rw [filterMap_rules_count fp j l securityPatterns (by decide) nm r ci hmem,
        ruleStep_isSome]
      have hiff : (reMatches ci r l = true) ↔
          (j ≤ j ∧ j - j < (l :: rest).length ∧
            reMatches ci r ((l :: rest).getD (j - j) []) = true) := by
        rw [Nat.sub_self]
        simp
      by_cases hm : reMatches ci r l = true
      · rw [if_pos hm, if_pos (hiff.mp hm)]
      · rw [if_neg hm, if_neg (fun hc => hm (hiff.mpr hc))]
    · have h1 : (lineFindings fp j l).countP
          (fun v => decide (v.line = i + 1 ∧ v.type = nm)) = 0 := by
        rw [List.countP_eq_zero]
        intro v hv
        have := lineFindings_line fp j l v hv
        simp only [decide_eq_true_eq, this]
        rintro ⟨hc, -⟩
        omega
      rw [h1, ih (j + 1) i, zero_add]
      have hiff : (j + 1 ≤ i ∧ i - (j + 1) < rest.length ∧
          reMatches ci r (rest.getD (i - (j + 1)) []) = true) ↔
          (j ≤ i ∧ i - j < (l :: rest).length ∧
            reMatches ci r ((l :: rest).getD (i - j) []) = true) := by
        constructor
        · rintro ⟨a, b, c⟩
          refine ⟨by omega, by simp; omega, ?_⟩
          rw [show i - j = (i - (j + 1)) + 1 by omega, List.getD_cons_succ]
          exact c
        · rintro ⟨a, b, c⟩
          have hj : j < i := lt_of_le_of_ne a hji
          rw [show i - j = (i - (j + 1)) + 1 by omega, List.getD_cons_succ] at c
          refine ⟨by omega, ?_, c⟩
          rw [List.length_cons] at b
          omega
      rw [if_congr hiff rfl rfl]

/-- C1: the security scanner is per-line independent.  Although the
`g`-flagged rule regexes carry `lastIndex` state across lines, every
`test` runs with `lastIndex = 0` (a failed `test` and the
`line.match(regex)` call of the push both reset it), so `analyzeSecurity`
coincides with the per-line-independent scan, and each physical line
yields exactly one finding per rule whose pattern matches that line —
regardless of the other lines; in particular two consecutive identical
matching lines each yield a finding. -/
theorem C1_security_per_line_independent :
    (∀ content fp : String,
      analyzeSecurity content fp = analyzeSecurityIndependent content fp)
    ∧ (∀ (content fp : String) (i : Nat) (nm : String) (r : RE) (ci : Bool),
        (nm, r, ci) ∈ securityPatterns →
        vulnCount (analyzeSecurity content fp) (i + 1) nm =
          if i < (jsLines content.data).length ∧
              reMatches ci r ((jsLines content.data).getD i []) = true
          then 1 else 0) := by
  constructor
  · intro content fp
    exact secScan_eq fp (jsLines content.data) 0
  · intro content fp i nm r ci hmem
    rw [show analyzeSecurity content fp = analyzeSecurityIndependent content fp from
      secScan_eq fp (jsLines content.data) 0]
    show (secScanIndependent fp (jsLines content.data) 0).countP
      (fun v => decide (v.line = i + 1 ∧ v.type = nm)) = _
    rw [secScanIndependent_count fp nm r ci hmem (jsLines content.data) 0 i]
    have hiff : (0 ≤ i ∧ i - 0 < (jsLines content.data).length ∧
        reMatches ci r ((jsLines content.data).getD (i - 0) []) = true) ↔
        (i < (jsLines content.data).length ∧
          reMatches ci r ((jsLines content.data).getD i []) = true) := by
      rw [Nat.sub_zero]
      simp [Nat.zero_le]
    rw [if_congr hiff rfl rfl]

/-- C1 witness: two consecutive identical `Math.random` lines each yield
exactly one `insecure_random` finding, and the stateful scan equals the
per-line-independent one. -/
theorem C1_witness :
    analyzeSecurity twoRandomLines "a.ts" =
      analyzeSecurityIndependent twoRandomLines "a.ts" ∧
    vulnCount (analyzeSecurity twoRandomLines "a.ts") 1 "insecure_random" = 1 ∧
    vulnCount (analyzeSecurity twoRandomLines "a.ts") 2 "insecure_random" = 1 := by
  refine ⟨C1_security_per_line_independent.1 twoRandomLines "a.ts", ?_, ?_⟩
  · have h1 := C1_security_per_line_independent.2 twoRandomLines "a.ts" 0
      "insecure_random" insecureRandomRe false (by decide)
    rw [if_pos (by exact ⟨by decide, by decide⟩)] at h1
    exact h1
  · have h2 := C1_security_per_line_independent.2 twoRandomLines "a.ts" 1
      "insecure_random" insecureRandomRe false (by decide)
    rw [if_pos (by exact ⟨by decide, by decide⟩)] at h2
    exact h2

end CodeAnalysis
